import Mathlib

/-!
Verification of the UrlGuard (LinkShield) threat-analysis core against its
natural-language specification.

The TypeScript sources are shallowly embedded:

* JavaScript strings are modelled as `List Nat` (Unicode code points), so
  that all character arithmetic is plain `Nat` arithmetic.
* The platform `new URL(...)` constructor (an external collaborator of the
  repository) is modelled by `parseURL`/`serialNoHash` for the well-formed
  `scheme://host[:port][/path][?query][#hash]` shape: hosts and schemes are
  lowercased, default ports (https:443, http:80) are elided, an empty path
  serializes as "/", fragments are kept separate.  Percent-decoding,
  punycode conversion, dot-segment removal and userinfo stripping are not
  modelled; `String.prototype.toLowerCase` is modelled on the ASCII range.
  A string that throws in `new URL` is modelled as `parseURL _ = none`.
* Asynchronous external API calls are modelled by environment records that
  fix the outcome of each cache probe, rate-limit probe and network fetch,
  so every control-flow branch of the source is reachable in the model.
* Floating-point values never decide any verified claim.  The Shannon
  entropy comparisons of the source (`entropy > 4.0` etc.) are modelled by
  the exact equivalent integer comparison `n^(b*n) > 2^(a*n) * prod c_i^(b*c_i)`,
  ratio comparisons by exact rational arithmetic, and the ML confidence by
  integer hundredths.
* Thrown exceptions are modelled with `Option`: `none` is an uncaught throw.
-/

namespace UrlGuard

/-- JavaScript strings, as lists of Unicode code points. -/
abbrev Str := List Nat

/-- Embed a Lean string literal as a `Str`. -/
def str (s : String) : Str := s.toList.map Char.toNat

/-! ## Character classes and ASCII lowercasing -/

def isDigitC (c : Nat) : Bool := decide (48 ≤ c) && decide (c ≤ 57)

def isAlphaC (c : Nat) : Bool :=
  (decide (65 ≤ c) && decide (c ≤ 90)) || (decide (97 ≤ c) && decide (c ≤ 122))

def isLowerAlphaC (c : Nat) : Bool := decide (97 ≤ c) && decide (c ≤ 122)

def isAlnumC (c : Nat) : Bool := isAlphaC c || isDigitC c

def isHexC (c : Nat) : Bool :=
  isDigitC c || (decide (97 ≤ c) && decide (c ≤ 102)) || (decide (65 ≤ c) && decide (c ≤ 70))

/-- `String.prototype.toLowerCase`, modelled on the ASCII range. -/
def asciiLower (c : Nat) : Nat := if 65 ≤ c ∧ c ≤ 90 then c + 32 else c

def lowerStr (s : Str) : Str := s.map asciiLower

/-! ## Generic string helpers (substring search, split, …) -/

/-- Does `s` start with `p`? -/
def startsWithS : Str → Str → Bool
  | _, [] => true
  | [], _ :: _ => false
  | a :: as, b :: bs => decide (a = b) && startsWithS as bs

/-- `String.prototype.includes`: does `s` contain `pat` as a contiguous substring? -/
def containsSub (s pat : Str) : Bool :=
  match s with
  | [] => pat.isEmpty
  | _ :: rest => startsWithS s pat || containsSub rest pat

/-- Does `s` end with `suf`? -/
def endsWithS (s suf : Str) : Bool :=
  decide (suf.length ≤ s.length) && decide (s.drop (s.length - suf.length) = suf)

/-- The remainder of `s` after the first occurrence of `pat`, if any. -/
def afterFirst (s pat : Str) : Option Str :=
  match s with
  | [] => if pat.isEmpty then some [] else none
  | _ :: rest => if startsWithS s pat then some (s.drop pat.length) else afterFirst rest pat

/-- `String.prototype.split` on a single-character separator. -/
def splitOnC (d : Nat) : Str → List Str
  | [] => [[]]
  | c :: rest =>
    let r := splitOnC d rest
    if c = d then [] :: r
    else
      match r with
      | h :: t => (c :: h) :: t
      | [] => [[c]]

/-- Join a list of strings with a separator (Array.prototype.join). -/
def joinWith (sep : Str) : List Str → Str
  | [] => []
  | [x] => x
  | x :: xs => x ++ sep ++ joinWith sep xs

/-- Decimal rendering of a natural number, as a `Str`. -/
def natStr (n : Nat) : Str := str (toString n)

/-! ## Model of the platform WHATWG `URL` object -/

structure URLObj where
  scheme : Str
  host : Str
  port : Str
  path : Str
  query : Str
  hash : Str
deriving DecidableEq

/-- Characters that terminate the authority (host:port) component. -/
def notDelim (c : Nat) : Bool := !(decide (c = 47) || decide (c = 63) || decide (c = 35))

def notColon (c : Nat) : Bool := !decide (c = 58)

/-- Characters that terminate the path component (`?` and `#`). -/
def notQH (c : Nat) : Bool := !(decide (c = 63) || decide (c = 35))

def notHash (c : Nat) : Bool := !decide (c = 35)

/-- Split at the first literal `"://"`; the scheme validity check below
rejects any earlier `:`. -/
def splitScheme : Str → Option (Str × Str)
  | [] => none
  | c :: rest =>
    if c = 58 ∧ rest.take 2 = [47, 47] then some ([], rest.drop 2)
    else (splitScheme rest).map (fun p => (c :: p.1, p.2))

def schemeOkChar (c : Nat) : Bool :=
  isAlphaC c || isDigitC c || decide (c = 43) || decide (c = 45) || decide (c = 46)

def schemeOk (s : Str) : Bool :=
  match s with
  | [] => false
  | c :: rest => isAlphaC c && rest.all schemeOkChar

/-- Model of `new URL(s)`: `none` models a thrown `TypeError`. -/
def parseURL (s : Str) : Option URLObj :=
  match splitScheme s with
  | none => none
  | some (schemeRaw, rest) =>
    let scheme := lowerStr schemeRaw
    if schemeOk scheme then
      let netloc := rest.takeWhile notDelim
      let after := rest.dropWhile notDelim
      let hostRaw := netloc.takeWhile notColon
      let portRaw := (netloc.dropWhile notColon).drop 1
      if portRaw.all isDigitC then
        let host := lowerStr hostRaw
        if host.isEmpty then none
        else
          let port :=
            if (decide (scheme = str "https") && decide (portRaw = str "443")) ||
               (decide (scheme = str "http") && decide (portRaw = str "80")) then []
            else portRaw
          let path := after.takeWhile notQH
          let r2 := after.dropWhile notQH
          let query := r2.takeWhile notHash
          let hash := r2.dropWhile notHash
          some ⟨scheme, host, port, path, query, hash⟩
      else none
    else none

/-- `url.href` after `url.hash = ''` (the only serialization the source needs). -/
def serialNoHash (o : URLObj) : Str :=
  o.scheme ++ str ("://") ++ o.host ++
    (if o.port.isEmpty then [] else 58 :: o.port) ++
    (if o.path.isEmpty then [47] else o.path) ++ o.query

/-- The `URL.search` accessor: a lone `"?"` reads back as the empty string. -/
def searchOf (o : URLObj) : Str := if o.query = str ("?") then [] else o.query

/-- The `URL.pathname` accessor: an empty path reads back as `"/"`. -/
def pathnameOf (o : URLObj) : Str := if o.path.isEmpty then [47] else o.path

/-! ## ThreatAnalyzer.normalizeURL (threat-analyzer.ts lines 163-176) -/

/-- `normalizeURL`: parse, clear the fragment, take `href`, strip one
trailing `/`, lowercase; a parse failure falls back to lowercasing the
raw input. -/
def normalizeURL (u : Str) : Str :=
  match parseURL u with
  | none => lowerStr u
  | some o =>
    let h := serialNoHash o
    let n := if h.getLast? = some 47 then h.dropLast else h
    lowerStr n

example : normalizeURL (str ("HTTPS://Example.com/Path/")) = str ("https://example.com/path") := by
  decide

example : normalizeURL (str ("not a url")) = str ("not a url") := by decide

example : normalizeURL (str ("https://example.com//")) = str ("https://example.com/") := by decide

example : normalizeURL (str ("https://example.com/")) = str ("https://example.com") := by decide

/-! ## Data model (types.ts) -/

inductive RiskLevel where
  | safe | low | medium | high | critical
deriving DecidableEq

/-- Rank of a risk level in the ascending order Safe < Low < Medium < High < Critical. -/
def levelRank : RiskLevel → Nat
  | .safe => 0
  | .low => 1
  | .medium => 2
  | .high => 3
  | .critical => 4

inductive Layer where
  | signature | heuristic | ml | behavior
deriving DecidableEq

/-- `DetectionLayer` of types.ts.  Scores are integers: every score in the
source is integer-valued (`Math.floor` is applied to the only scaled one). -/
structure DetectionLayer where
  layer : Layer
  method : Str
  score : Int
  details : Str
  matched : Bool
deriving DecidableEq

/-- `ThreatAnalysisResult` of types.ts. -/
structure ThreatAnalysisResult where
  url : Str
  isMalicious : Bool
  riskScore : Int
  riskLevel : RiskLevel
  detectionLayers : List DetectionLayer
  timestamp : Nat
  details : Str
deriving DecidableEq

structure CacheEntry where
  result : ThreatAnalysisResult
  timestamp : Nat
deriving DecidableEq

/-! ## CONFIG (config.ts) -/

def RISK_LOW : Int := 25
def RISK_MEDIUM : Int := 40
def RISK_HIGH : Int := 60
def RISK_CRITICAL : Int := 85

def SAFE_URL_TTL : Nat := 3600000
def MAX_CACHE_SIZE : Nat := 10000

def W_IP_URL : Int := 40
def W_SUSPICIOUS_TLD : Int := 25
def W_PUNYCODE : Int := 35
def W_LONG_URL : Int := 15
def W_EXCESSIVE_SUBDOMAIN : Int := 20
def W_URL_ENCODING : Int := 25
def W_SUSPICIOUS_KEYWORDS : Int := 30
def W_NO_HTTPS : Int := 15

def URL_LENGTH_SUSPICIOUS : Nat := 75
def URL_LENGTH_VERY_SUSPICIOUS : Nat := 150
def URL_LENGTH_EXTREME : Nat := 250

def MAX_SUBDOMAINS : Nat := 4
def PATH_MAX_DEPTH : Nat := 8

def SUSPICIOUS_TLDS : List Str :=
  [str ("tk"), str ("ml"), str ("ga"), str ("cf"), str ("gq"), str ("freenom"),
   str ("zip"), str ("mov"), str ("loan"), str ("click"), str ("work"), str ("party"),
   str ("racing"), str ("download"), str ("stream"), str ("trade"), str ("webcam"),
   str ("men"), str ("click"), str ("homes"), str ("top"), str ("xyz"), str ("icu"),
   str ("site"), str ("online"), str ("vip"), str ("win"), str ("bid"), str ("date"),
   str ("faith"), str ("review"), str ("science"), str ("pro"), str ("cfd"),
   str ("sbs"), str ("bond"), str ("live"), str ("shop"), str ("club"), str ("space"),
   str ("fun"), str ("buzz"), str ("country"), str ("kim"), str ("pw"), str ("cc"),
   str ("ws"), str ("gdn"), str ("rest"), str ("link")]

def TRUSTED_INFRA_DOMAINS : List Str :=
  [str ("google.com"), str ("googleapis.com"), str ("googleusercontent.com"),
   str ("gstatic.com"), str ("gmail.com"), str ("youtube.com"), str ("googlevideo.com"),
   str ("google-analytics.com"), str ("doubleclick.net"), str ("firebaseapp.com"),
   str ("firebaseio.com"), str ("firebasestorage.googleapis.com"), str ("appspot.com"),
   str ("cloudfront.net"), str ("amazonaws.com"), str ("azureedge.net"), str ("azure.com"),
   str ("microsoft.com"), str ("microsoftonline.com"), str ("office.com"),
   str ("outlook.com"), str ("live.com"), str ("windows.net"), str ("github.com"),
   str ("github.io"), str ("gitlab.com"), str ("bitbucket.org"), str ("sourceforge.net"),
   str ("npmjs.com"), str ("stackoverflow.com"), str ("apple.com"), str ("icloud.com"),
   str ("facebook.com"), str ("fbcdn.net"), str ("twitter.com"), str ("twimg.com"),
   str ("linkedin.com"), str ("licdn.com"), str ("amazon.com"),
   str ("ssl-images-amazon.com"), str ("cloudflare.com"), str ("akamai.net"),
   str ("fastly.net")]

def PHISHING_KEYWORDS : List Str :=
  [str ("login"), str ("signin"), str ("verify"), str ("account"), str ("security"),
   str ("update"), str ("confirm"), str ("banking"), str ("paypal"), str ("suspended"),
   str ("limited"), str ("unusual"), str ("activity"), str ("locked"), str ("validate"),
   str ("secure"), str ("password"), str ("credential"), str ("verification"),
   str ("authorize"), str ("authenticate"), str ("billing"), str ("payment"),
   str ("wallet"), str ("invoice")]

def URGENT_KEYWORDS : List Str :=
  [str ("urgent"), str ("immediate"), str ("action required"), str ("expire"),
   str ("expires"), str ("suspended"), str ("locked"), str ("unauthorized"),
   str ("verify now"), str ("click here"), str ("act now"), str ("limited time"),
   str ("suspended account")]

def TARGETED_BRANDS : List Str :=
  [str ("paypal"), str ("google"), str ("microsoft"), str ("apple"), str ("amazon"),
   str ("facebook"), str ("netflix"), str ("instagram"), str ("twitter"),
   str ("linkedin"), str ("dropbox"), str ("bankofamerica"), str ("chase"),
   str ("wellsfargo"), str ("citibank")]

def SHORTENER_DOMAINS : List Str :=
  [str ("bit.ly"), str ("tinyurl.com"), str ("goo.gl"), str ("t.co"), str ("ow.ly"),
   str ("is.gd"), str ("buff.ly"), str ("adf.ly"), str ("bit.do"), str ("short.link"),
   str ("cutt.ly"), str ("rb.gy"), str ("tiny.cc"), str ("bc.vc")]

/-! ## ThreatAnalyzer.getRiskLevel (threat-analyzer.ts lines 152-158) -/

def getRiskLevel (score : Int) : RiskLevel :=
  if score ≥ RISK_CRITICAL then .critical
  else if score ≥ RISK_HIGH then .high
  else if score ≥ RISK_MEDIUM then .medium
  else if score ≥ RISK_LOW then .low
  else .safe

/-! ## SignatureEngine (signature-engine.ts)

The three `check*` functions are `async` and consult shared caches, rate
limiters, stored API keys and the network.  Each of those external probes is
frozen into an environment record, one field per branch condition of the
source, so that every code path of the source corresponds to a choice of
environment. -/

structure APIResponse where
  success : Bool
  malicious : Bool
  source : Str
  error : Option Str
  /-- models `details.totalDetections` attached by the VirusTotal branch -/
  totalDetections : Option Nat
deriving DecidableEq

/-- Outcome of one `fetch` round trip. -/
inductive FetchOutcome where
  /-- HTTP 2xx with a parsed body; the payload is the service-specific
  malicious verdict, plus the VirusTotal detection count where relevant. -/
  | ok (malicious : Bool) (detections : Nat)
  /-- `!response.ok` (non-2xx status). -/
  | httpError (status : Nat)
  /-- network failure / thrown error with a message. -/
  | netError (msg : Str)
deriving DecidableEq

structure SafeBrowsingEnv where
  /-- `some m`: the engine cache holds a fresh entry with verdict `m`
  (`cached && Date.now() - cached.timestamp < CONFIG.CACHE.SAFE_URL_TTL`). -/
  cacheHit : Option Bool
  /-- result of `checkRateLimit('safe_browsing', …)` -/
  rateOk : Bool
  /-- the stored key differs from `'YOUR_API_KEY_HERE'` -/
  keyConfigured : Bool
  fetch : FetchOutcome
deriving DecidableEq

structure PhishTankEnv where
  keyConfigured : Bool
  /-- `ok m _`: HTTP success with `results.in_database === true && results.valid === true` ↦ `m` -/
  fetch : FetchOutcome
deriving DecidableEq

structure VirusTotalEnv where
  keyConfigured : Bool
  rateOk : Bool
  /-- `ok m d`: HTTP success where `d = (stats.malicious || 0) + (stats.suspicious || 0)`
  and `m = d > 0` -/
  fetch : FetchOutcome
deriving DecidableEq

/-- `checkLocalBlacklist` (signature-engine.ts lines 97-127): the hostname is
computed (and can throw, caught locally) but the patterns are tested against
the whole URL, case-insensitively. -/
def checkLocalBlacklist (url : Str) : APIResponse :=
  match parseURL url with
  | none =>
    { success := false, malicious := false, source := str ("Local Blacklist"),
      error := some (str ("Error checking local blacklist")), totalDetections := none }
  | some _ =>
    let u := lowerStr url
    let seqMatch := fun (a b : Str) =>
      match afterFirst u a with
      | some rest => containsSub rest b
      | none => false
    let isBlack :=
      containsSub u (str ("phishing")) || containsSub u (str ("malware")) ||
      containsSub u (str ("scam")) || seqMatch (str ("fake")) (str ("login")) ||
      seqMatch (str ("secure")) (str ("verify")) || seqMatch (str ("account")) (str ("suspend"))
    { success := true, malicious := isBlack, source := str ("Local Blacklist"),
      error := none, totalDetections := none }

/-- `checkSafeBrowsing` (signature-engine.ts lines 17-92). -/
def checkSafeBrowsing (url : Str) (env : SafeBrowsingEnv) : APIResponse :=
  match env.cacheHit with
  | some m =>
    { success := true, malicious := m, source := str ("Google Safe Browsing (cached)"),
      error := none, totalDetections := none }
  | none =>
    if !env.rateOk then
      { success := false, malicious := false, source := str ("Google Safe Browsing"),
        error := some (str ("Rate limit exceeded")), totalDetections := none }
    else if !env.keyConfigured then
      checkLocalBlacklist url
    else
      match env.fetch with
      | .ok m _ =>
        { success := true, malicious := m, source := str ("Google Safe Browsing"),
          error := none, totalDetections := none }
      | .httpError s =>
        { success := false, malicious := false, source := str ("Google Safe Browsing"),
          error := some (str ("API error: ") ++ natStr s), totalDetections := none }
      | .netError msg =>
        { success := false, malicious := false, source := str ("Google Safe Browsing"),
          error := some msg, totalDetections := none }

/-- `checkPhishTank` (signature-engine.ts lines 132-188). -/
def checkPhishTank (env : PhishTankEnv) : APIResponse :=
  if !env.keyConfigured then
    { success := true, malicious := false, source := str ("PhishTank"),
      error := none, totalDetections := none }
  else
    match env.fetch with
    | .ok m _ =>
      { success := true, malicious := m, source := str ("PhishTank"),
        error := none, totalDetections := none }
    | .httpError s =>
      { success := false, malicious := false, source := str ("PhishTank"),
        error := some (str ("API unavailable (") ++ natStr s ++ str (")")),
        totalDetections := none }
    | .netError msg =>
      { success := false, malicious := false, source := str ("PhishTank"),
        error := some msg, totalDetections := none }

/-- `checkVirusTotal` (signature-engine.ts lines 193-252). -/
def checkVirusTotal (env : VirusTotalEnv) : APIResponse :=
  if !env.keyConfigured then
    { success := false, malicious := false, source := str ("VirusTotal"),
      error := some (str ("API key not configured")), totalDetections := none }
  else if !env.rateOk then
    { success := false, malicious := false, source := str ("VirusTotal"),
      error := some (str ("Rate limit exceeded")), totalDetections := none }
  else
    match env.fetch with
    | .ok _ d =>
      { success := true, malicious := decide (0 < d), source := str ("VirusTotal"),
        error := none, totalDetections := some d }
    | .httpError s =>
      { success := false, malicious := false, source := str ("VirusTotal"),
        error := some (str ("VirusTotal API error: ") ++ natStr s), totalDetections := none }
    | .netError msg =>
      { success := false, malicious := false, source := str ("VirusTotal"),
        error := some msg, totalDetections := none }

/-- One iteration of the `results.forEach` of `checkAllAPIs`
(signature-engine.ts lines 266-311).  The three `check*` functions catch all
of their errors, so `Promise.allSettled` always fulfils and the `rejected`
branch of the source is unreachable. -/
def apiLayer (apiName : Str) (r : APIResponse) : DetectionLayer :=
  if r.success then
    if r.malicious then
      { layer := .signature, method := r.source, score := 100,
        details := str ("Flagged as malicious by ") ++ r.source ++
          (match r.totalDetections with
           | some (n + 1) => str (" (") ++ natStr (n + 1) ++ str (" detections)")
           | _ => []),
        matched := true }
    else
      { layer := .signature, method := r.source, score := 0,
        details := str ("Checked by ") ++ r.source ++ str (" - Clean"),
        matched := false }
  else
    { layer := .signature, method := apiName, score := 0,
      details := apiName ++ str (" check failed: ") ++ (r.error.getD (str ("Unknown error"))),
      matched := false }

structure GatewayEnv where
  sb : SafeBrowsingEnv
  pt : PhishTankEnv
  vt : VirusTotalEnv
deriving DecidableEq

/-- `checkAllAPIs` (signature-engine.ts lines 257-314). -/
def checkAllAPIs (url : Str) (gw : GatewayEnv) : List DetectionLayer :=
  [apiLayer (str ("Google Safe Browsing")) (checkSafeBrowsing url gw.sb),
   apiLayer (str ("PhishTank")) (checkPhishTank gw.pt),
   apiLayer (str ("VirusTotal")) (checkVirusTotal gw.vt)]

/-- `checkRateLimit` (signature-engine.ts lines 319-338), on one counter. -/
structure RateCounter where
  count : Nat
  resetTime : Nat
deriving DecidableEq

def checkRateLimit (counter : Option RateCounter) (now limit : Nat) :
    Bool × RateCounter :=
  match counter with
  | none => (true, ⟨1, now + 60000⟩)
  | some c =>
    if now > c.resetTime then (true, ⟨1, now + 60000⟩)
    else if c.count ≥ limit then (false, c)
    else (true, ⟨c.count + 1, c.resetTime⟩)

/-! ## HeuristicEngine (heuristic-engine.ts)

Regular-expression tests of the source are embedded as the equivalent
explicit scans; each definition names the regex it replaces. -/

/-- Count of non-overlapping matches of `/%[0-9A-F]{2}/gi`.  Because the
two characters after the `%` of a match are hex digits and never `%`,
matches can never overlap, so counting every position that starts a match
equals the global regex count. -/
def pctCount : Str → Nat
  | [] => 0
  | c :: rest =>
    (match c, rest with
     | 37, a :: b :: _ => if isHexC a && isHexC b then 1 else 0
     | _, _ => 0) + pctCount rest

/-- `/^(\d{1,3}\.){3}\d{1,3}$/` on the hostname. -/
def isIPv4 (host : Str) : Bool :=
  let parts := splitOnC 46 host
  decide (parts.length = 4) &&
    parts.all (fun p => decide (1 ≤ p.length) && decide (p.length ≤ 3) && p.all isDigitC)

/-- `/^([0-9a-fA-F]{0,4}:){2,7}[0-9a-fA-F]{0,4}$/` on the hostname. -/
def isIPv6 (host : Str) : Bool :=
  let parts := splitOnC 58 host
  decide (3 ≤ parts.length) && decide (parts.length ≤ 8) &&
    parts.all (fun p => decide (p.length ≤ 4) && p.all isHexC)

/-- `HeuristicEngine.isIPAddress`. -/
def isIPAddress (host : Str) : Bool := isIPv4 host || isIPv6 host

/-- `HeuristicEngine.isURLShortener`. -/
def isURLShortener (host : Str) : Bool :=
  SHORTENER_DOMAINS.any (fun s => decide (host = s) || endsWithS host (46 :: s))

/-- `/([a-z0-9])\1{3,}/i` on the hostname: four or more consecutive copies
of one alphanumeric character (the `/i` flag makes the class and the
backreference case-insensitive, modelled by comparing lowercased characters). -/
def hasRun4 : Str → Bool
  | a :: b :: c :: d :: rest =>
    (isAlnumC (asciiLower a) && decide (asciiLower a = asciiLower b) &&
     decide (asciiLower a = asciiLower c) && decide (asciiLower a = asciiLower d)) ||
    hasRun4 (b :: c :: d :: rest)
  | _ => false

/-- `/[a-z]{3,}=[^&]+/i` on the query string: three or more letters,
then `=`, then at least one non-`&` character. -/
def readableParamAt (s : Str) : Bool :=
  let letters := s.takeWhile isAlphaC
  match s.drop letters.length with
  | 61 :: next :: _ => decide (3 ≤ letters.length) && !decide (next = 38)
  | _ => false

def hasReadableParamsIn : Str → Bool
  | [] => false
  | c :: rest => readableParamAt (c :: rest) || hasReadableParamsIn rest

/-- `/[a-z0-9]{20,}/i` on the query string: a run of 20 alphanumerics. -/
def hasAlnumRun20 : Str → Bool
  | [] => false
  | c :: rest =>
    decide (20 ≤ ((c :: rest).takeWhile isAlnumC).length) || hasAlnumRun20 rest

/-- DGA pattern 1 of the SLD analysis: `/[a-z0-9]+-[a-z0-9]+/` — a hyphen
with an alphanumeric immediately on both sides. -/
def hasAlnumHyphenAlnum : Str → Bool
  | [] => false
  | a :: rest =>
    (match rest with
     | 45 :: b :: _ => isAlnumC a && isAlnumC b
     | _ => false) ||
    hasAlnumHyphenAlnum rest

/-- DGA pattern 2: `/[a-z]{5,}[0-9]{3,}/` — five or more letters directly
followed by three or more digits (the source tests the lowercased SLD, where
`[a-z]` is plain letters). -/
def hasLetters5Digits3 : Str → Bool
  | [] => false
  | c :: rest =>
    (let letters := ((c :: rest).takeWhile isLowerAlphaC).length
     decide (5 ≤ letters) &&
       decide (3 ≤ (((c :: rest).drop letters).takeWhile isDigitC).length)) ||
    hasLetters5Digits3 rest

/-- DGA pattern 3: `/^[a-f0-9]{10,}$/i`. -/
def isHexLike10 (s : Str) : Bool := decide (10 ≤ s.length) && s.all isHexC

/-- `/^[a-f0-9]{3,8}$/i` for the leftmost subdomain label. -/
def isHexLike3to8 (s : Str) : Bool :=
  decide (3 ≤ s.length) && decide (s.length ≤ 8) && s.all isHexC

/-- `levenshteinDistance` (heuristic-engine.ts lines 500-526), embedded as
the same dynamic program computed row by row.  `levStep y a diag left ups`
produces the next row (past column 0) for character `y` of `b`. -/
def levStep (y : Nat) : Str → Nat → Nat → List Nat → List Nat
  | [], _, _, _ => []
  | _ :: _, _, _, [] => []
  | x :: xs, diag, left, up :: ups =>
    let cur := if x = y then diag else 1 + min diag (min up left)
    cur :: levStep y xs up cur ups

def levFold (a : Str) : Str → List Nat → List Nat
  | [], row => row
  | y :: ys, row =>
    match row with
    | [] => []
    | r0 :: rest => levFold a ys ((r0 + 1) :: levStep y a r0 (r0 + 1) rest)

def levenshteinDistance (a b : Str) : Nat :=
  (levFold a b (List.range (a.length + 1))).getLast?.getD 0

example : levenshteinDistance (str ("kitten")) (str ("sitting")) = 3 := by decide

example : levenshteinDistance (str ("paypa1.com")) (str ("paypal.com")) = 1 := by decide

/-- The homograph lookalike table of `detectBrandImpersonation`. -/
def lookalikeTable : List (Nat × List Nat) :=
  [(('a').toNat, [('а').toNat, ('à').toNat, ('á').toNat, ('â').toNat, ('ã').toNat, ('ä').toNat]),
   (('e').toNat, [('е').toNat, ('è').toNat, ('é').toNat, ('ê').toNat, ('ë').toNat]),
   (('i').toNat, [('і').toNat, ('ì').toNat, ('í').toNat, ('î').toNat, ('ï').toNat]),
   (('o').toNat, [('о').toNat, ('ò').toNat, ('ó').toNat, ('ô').toNat, ('õ').toNat, ('ö').toNat, ('0').toNat]),
   (('l').toNat, [('1').toNat, ('і').toNat, ('|').toNat])]

/-- The three per-brand checks of `detectBrandImpersonation`
(heuristic-engine.ts lines 461-495). -/
def brandCheck (hostLower brand : Str) : Bool :=
  (containsSub hostLower brand && !endsWithS hostLower (brand ++ str (".com"))) ||
  (let d := levenshteinDistance hostLower (brand ++ str (".com"))
   decide (0 < d) && decide (d ≤ 2) && containsSub hostLower (brand.take 4)) ||
  lookalikeTable.any (fun p =>
    containsSub brand [p.1] && p.2.any (fun fake => containsSub hostLower [fake]))

/-- `detectBrandImpersonation`: the first matching brand, if any. -/
def detectBrandImpersonation (host : Str) : Option Str :=
  TARGETED_BRANDS.find? (brandCheck (lowerStr host))

/-- Per-character occurrence counts, for the entropy comparison. -/
def bumpCount (c : Nat) : List (Nat × Nat) → List (Nat × Nat)
  | [] => [(c, 1)]
  | p :: rest => if p.1 = c then (c, p.2 + 1) :: rest else p :: bumpCount c rest

def charCounts : Str → List (Nat × Nat)
  | [] => []
  | c :: rest => bumpCount c (charCounts rest)

/-- Exact decision of `calculateEntropy(s) > a / b` (b > 0): with `n = |s|`
and per-character counts `cᵢ`, the Shannon entropy exceeds `a / b` iff
`n^(b·n) > 2^(a·n) · ∏ cᵢ^(b·cᵢ)` — both sides are the base-2 exponentials
of `b·n` times the two sides of the comparison.  The source compares IEEE
doubles; this model decides the comparison in exact arithmetic. -/
def entropyGt (s : Str) (a b : Nat) : Bool :=
  let n := s.length
  decide (n ^ (b * n) > 2 ^ (a * n) * (charCounts s).foldl (fun acc p => acc * p.2 ^ (b * p.2)) 1)

example : entropyGt (str ("aaaa")) 4 1 = false := by decide

example : entropyGt (str ("abcdefghijklmnopq")) 4 1 = true := by decide

example : entropyGt (str ("abcdefghijklmnop")) 4 1 = false := by decide

/-- `URLFeatures` (types.ts).  The real-valued `entropy` field is carried as
its exact comparisons against every threshold the engines use (4.0 for the
heuristic rule; 4.8 / 4.2 / 3.8 for `MLEngine.predict`). -/
structure URLFeatures where
  length : Nat
  domainLength : Nat
  subdomainCount : Nat
  hasIP : Bool
  usesHTTPS : Bool
  hasSuspiciousTLD : Bool
  hasPunycode : Bool
  hasPort : Bool
  specialCharCount : Nat
  digitCount : Nat
  entropyGt40 : Bool
  entropyGt48 : Bool
  entropyGt42 : Bool
  entropyGt38 : Bool
  urlEncodingCount : Nat
  suspiciousEncoding : Bool
  hasReadableParams : Bool
  hasRandomParams : Bool
  hasQualityDomain : Bool
  phishingKeywordCount : Nat
  urgentKeywordCount : Nat
  brandImpersonation : Option Str
  pathDepth : Nat
  pathSlashCount : Nat
  hasConsecutiveChars : Bool
  isShortener : Bool
  hasHyphenSpam : Bool
  hasDotSpam : Bool
deriving DecidableEq

/-- The fixed benign-default feature set of the `catch` branch of
`extractFeatures` (heuristic-engine.ts lines 121-147). -/
def benignDefaultFeatures : URLFeatures :=
  { length := 0, domainLength := 0, subdomainCount := 0, hasIP := false,
    usesHTTPS := true, hasSuspiciousTLD := false, hasPunycode := false,
    hasPort := false, specialCharCount := 0, digitCount := 0,
    entropyGt40 := false, entropyGt48 := false, entropyGt42 := false,
    entropyGt38 := false, urlEncodingCount := 0, suspiciousEncoding := false,
    hasReadableParams := true, hasRandomParams := false, hasQualityDomain := true,
    phishingKeywordCount := 0, urgentKeywordCount := 0, brandImpersonation := none,
    pathDepth := 0, pathSlashCount := 0, hasConsecutiveChars := false,
    isShortener := false, hasHyphenSpam := false, hasDotSpam := false }

/-- `extractFeatures` (heuristic-engine.ts lines 15-149). -/
def extractFeatures (url : Str) : URLFeatures :=
  match parseURL url with
  | none => benignDefaultFeatures
  | some o =>
    let hostname := o.host
    let pathname := pathnameOf o
    let search := searchOf o
    let domainParts := splitOnC 46 hostname
    let urlLower := lowerStr url
    let tld := domainParts.getLast?.getD []
    let sld := if 2 ≤ domainParts.length then domainParts.getD (domainParts.length - 2) [] else []
    { length := url.length,
      domainLength := hostname.length,
      subdomainCount := domainParts.length - 2,
      hasIP := isIPAddress hostname,
      usesHTTPS := decide (o.scheme = str ("https")),
      hasSuspiciousTLD := SUSPICIOUS_TLDS.any (fun t => decide (lowerStr tld = t)),
      hasPunycode := containsSub hostname (str ("xn--")),
      hasPort := !o.port.isEmpty,
      specialCharCount := url.countP (fun c => !isAlnumC c),
      digitCount := url.countP isDigitC,
      entropyGt40 := entropyGt hostname 4 1,
      entropyGt48 := entropyGt hostname 24 5,
      entropyGt42 := entropyGt hostname 21 5,
      entropyGt38 := entropyGt hostname 19 5,
      urlEncodingCount := pctCount url,
      suspiciousEncoding := decide (0 < pctCount hostname) || decide (5 < pctCount pathname),
      hasReadableParams := decide (0 < search.length) && hasReadableParamsIn search,
      hasRandomParams := decide (0 < search.length) && hasAlnumRun20 search,
      hasQualityDomain := decide (3 ≤ sld.length) && sld.all isAlphaC && !sld.any isDigitC,
      phishingKeywordCount := PHISHING_KEYWORDS.countP (fun k => containsSub urlLower k),
      urgentKeywordCount := URGENT_KEYWORDS.countP (fun k => containsSub urlLower k),
      brandImpersonation := detectBrandImpersonation hostname,
      pathDepth := (splitOnC 47 pathname).countP (fun p => decide (0 < p.length)),
      pathSlashCount := pathname.countP (fun c => decide (c = 47)),
      hasConsecutiveChars := hasRun4 hostname,
      isShortener := isURLShortener hostname,
      hasHyphenSpam := decide (3 < hostname.countP (fun c => decide (c = 45))),
      hasDotSpam := decide (5 < domainParts.length) }

/-- One conditional `layers.push(...)` site. -/
def optLayer (cond : Bool) (l : DetectionLayer) : List DetectionLayer :=
  if cond then [l] else []

def heurLayer (method : Str) (score : Int) (details : Str) : DetectionLayer :=
  { layer := .heuristic, method := method, score := score, details := details,
    matched := true }

/-- The URL-length if/else-if block (heuristic-engine.ts lines 196-216). -/
def lengthRule (isTrustedInfra isStructuredURL : Bool) (len : Nat) : List DetectionLayer :=
  let lengthThreshold := if isStructuredURL then URL_LENGTH_EXTREME else URL_LENGTH_VERY_SUSPICIOUS
  if !isTrustedInfra && decide (len > lengthThreshold) then
    [heurLayer (str ("Excessive URL Length")) (W_LONG_URL * 2)
      (str ("URL length (") ++ natStr len ++ str (") is extremely suspicious"))]
  else if !isTrustedInfra && decide (len > URL_LENGTH_SUSPICIOUS) && !isStructuredURL then
    [heurLayer (str ("Long URL")) W_LONG_URL
      (str ("URL length (") ++ natStr len ++ str (") is suspicious"))]
  else []

/-- The brand-impersonation push (lines 262-270). -/
def brandRule (brand? : Option Str) : List DetectionLayer :=
  match brand? with
  | some brand =>
    [heurLayer (str ("Brand Impersonation")) 50 (str ("Potential impersonation of ") ++ brand)]
  | none => []

/-- The SLD (DGA) analysis block (lines 366-386). -/
def dgaRule (domainParts : List Str) : List DetectionLayer :=
  if 2 ≤ domainParts.length then
    let sld := domainParts.getD (domainParts.length - 2) []
    optLayer ((hasAlnumHyphenAlnum sld && sld.any isDigitC && decide (sld.length > 12)) ||
              hasLetters5Digits3 sld || isHexLike10 sld)
      (heurLayer (str ("DGA / Random Domain")) 35
        (str ("Domain name pattern appears randomly generated or algorithmic")))
  else []

/-- The leftmost-subdomain analysis block (lines 389-401). -/
def subdomainRule (domainParts : List Str) : List DetectionLayer :=
  if 2 < domainParts.length then
    let sub := domainParts.getD 0 []
    optLayer (isHexLike3to8 sub ||
              (decide (sub.length > 5) && sub.any isDigitC && sub.any isLowerAlphaC))
      (heurLayer (str ("Suspicious Subdomain")) 30
        (str ("Subdomain appears to be a generated hash or ID")))
  else []

/-- The body of `HeuristicEngine.analyze` after the (throwing) `new URL(url)`
call succeeded (heuristic-engine.ts lines 155-403); the pushes appear in
source order. -/
def heuristicRules (url : Str) (o : URLObj) : List DetectionLayer :=
  let features := extractFeatures url
  let hostname := lowerStr o.host
  let isTrustedInfra := TRUSTED_INFRA_DOMAINS.any (fun d =>
    decide (hostname = d) || endsWithS hostname (46 :: d))
  let isStructuredURL := features.hasReadableParams && features.hasQualityDomain
  let keywordCountHostOnly := PHISHING_KEYWORDS.countP (fun k => containsSub hostname k)
  let phishingCount := if isTrustedInfra then keywordCountHostOnly else features.phishingKeywordCount
  let domainParts := splitOnC 46 o.host
  optLayer features.hasIP
    (heurLayer (str ("IP Address Detection")) W_IP_URL
      (str ("URL uses IP address instead of domain name"))) ++
  optLayer features.hasSuspiciousTLD
    (heurLayer (str ("Suspicious TLD")) W_SUSPICIOUS_TLD
      (str ("Domain uses a TLD commonly associated with phishing"))) ++
  optLayer features.hasPunycode
    (heurLayer (str ("Punycode/IDN Detection")) W_PUNYCODE
      (str ("URL contains internationalized domain (potential homograph attack)"))) ++
  lengthRule isTrustedInfra isStructuredURL features.length ++
  optLayer (decide (features.subdomainCount > MAX_SUBDOMAINS))
    (heurLayer (str ("Excessive Subdomains")) W_EXCESSIVE_SUBDOMAIN
      (str ("URL has ") ++ natStr features.subdomainCount ++ str (" subdomains (suspicious)"))) ++
  optLayer features.suspiciousEncoding
    (heurLayer (str ("Suspicious URL Encoding")) W_URL_ENCODING
      (str ("URL encoding found in hostname or excessive in path (obfuscation attempt)"))) ++
  optLayer (decide (phishingCount > 0))
    (heurLayer (str ("Phishing Keywords")) (W_SUSPICIOUS_KEYWORDS * (phishingCount : Int))
      (str ("Contains ") ++ natStr phishingCount ++ str (" phishing-related keyword(s)") ++
        (if isTrustedInfra then str (" in hostname") else []))) ++
  brandRule features.brandImpersonation ++
  optLayer (!features.usesHTTPS && decide (features.phishingKeywordCount > 0))
    (heurLayer (str ("No HTTPS on Sensitive Page")) W_NO_HTTPS
      (str ("Sensitive page without HTTPS encryption"))) ++
  optLayer features.hasConsecutiveChars
    (heurLayer (str ("Character Pattern Anomaly")) 15
      (str ("Domain contains suspicious repeated character patterns"))) ++
  optLayer features.isShortener
    (heurLayer (str ("URL Shortener Detected")) 10
      (str ("URL uses a shortening service (destination unknown)"))) ++
  optLayer features.hasHyphenSpam
    (heurLayer (str ("Hyphen Spam")) 18 (str ("Domain contains excessive hyphens"))) ++
  optLayer features.hasDotSpam
    (heurLayer (str ("Subdomain Spam")) 20 (str ("Domain has excessive subdomain levels"))) ++
  optLayer (decide (features.pathDepth > PATH_MAX_DEPTH))
    (heurLayer (str ("Excessive Path Depth")) 12
      (natStr features.pathDepth ++ str (" levels (suspicious structure)"))) ++
  optLayer (decide (features.urgentKeywordCount > 0))
    (heurLayer (str ("Social Engineering Language")) (25 * (features.urgentKeywordCount : Int))
      (str ("Contains ") ++ natStr features.urgentKeywordCount ++
        str (" urgent/pressure keyword(s)"))) ++
  optLayer (!isTrustedInfra && features.entropyGt40)
    (heurLayer (str ("High Domain Entropy")) 25
      (str ("Domain has high entropy, possibly randomly generated"))) ++
  dgaRule domainParts ++
  subdomainRule domainParts

/-- `HeuristicEngine.analyze` (heuristic-engine.ts lines 154-161):
`extractFeatures` recovers from a malformed URL, but the subsequent
`new URL(url)` on line 157 is outside every try/catch, so a malformed URL
throws — modelled by `none`. -/
def heuristicAnalyze (url : Str) : Option (List DetectionLayer) :=
  match parseURL url with
  | none => none
  | some o => some (heuristicRules url o)

/-! ## MLEngine (ml-engine.ts, embedded in heuristic-engine.ts part 2) -/

/-- An exact fraction, kept un-reduced: `numerator / denominator`. -/
abbrev Frac := Int × Nat

/-- Exact decision of `q > a / b` for a fraction `q` with positive
denominator and `b > 0`: cross-multiplication. -/
def fracGt (q : Frac) (a : Int) (b : Nat) : Bool := decide (q.1 * b > a * q.2)

/-- `MLFeatureVector` (types.ts).  The float-valued ratio features are exact
fractions here; 0/1-valued features are Booleans; the entropy feature is
carried as its threshold comparisons. -/
structure MLFeatureVector where
  urlLength : Nat
  domainLength : Nat
  pathLength : Nat
  queryLength : Nat
  subdomainCount : Nat
  digitRatio : Frac
  specialCharRatio : Frac
  consonantRatio : Frac
  entropyGt48 : Bool
  entropyGt42 : Bool
  entropyGt38 : Bool
  hasIP : Bool
  usesHTTPS : Bool
  hasSuspiciousTLD : Bool
  hasPunycode : Bool
  phishingKeywordScore : Nat
  urgentKeywordScore : Nat
  pathDepth : Nat
  hasConsecutiveChars : Bool
  isShortener : Bool
  hasReadableParams : Bool
  hasQualityDomain : Bool
  suspiciousEncoding : Bool
  hasRandomParams : Bool
deriving DecidableEq

/-- The defaults of the `catch` branch of `extractMLFeatures`. -/
def mlDefaultVector : MLFeatureVector :=
  { urlLength := 0, domainLength := 0, pathLength := 0, queryLength := 0,
    subdomainCount := 0, digitRatio := (0, 1), specialCharRatio := (0, 1),
    consonantRatio := (0, 1),
    entropyGt48 := false, entropyGt42 := false, entropyGt38 := false,
    hasIP := false, usesHTTPS := true, hasSuspiciousTLD := false, hasPunycode := false,
    phishingKeywordScore := 0, urgentKeywordScore := 0, pathDepth := 0,
    hasConsecutiveChars := false, isShortener := false, hasReadableParams := true,
    hasQualityDomain := true, suspiciousEncoding := false, hasRandomParams := false }

/-- `MLEngine.extractMLFeatures`. -/
def extractMLFeatures (url : Str) : MLFeatureVector :=
  let features := extractFeatures url
  match parseURL url with
  | none => mlDefaultVector
  | some o =>
    let denom : Nat := max features.length 1
    let vowelCount := url.countP (fun c =>
      [97, 101, 105, 111, 117, 65, 69, 73, 79, 85].any (fun v => decide (c = v)))
    { urlLength := features.length,
      domainLength := features.domainLength,
      pathLength := (pathnameOf o).length,
      queryLength := (searchOf o).length,
      subdomainCount := features.subdomainCount,
      digitRatio := ((features.digitCount : Int), denom),
      specialCharRatio := ((features.specialCharCount : Int), denom),
      consonantRatio := ((features.length : Int) - vowelCount - features.digitCount, denom),
      entropyGt48 := features.entropyGt48,
      entropyGt42 := features.entropyGt42,
      entropyGt38 := features.entropyGt38,
      hasIP := features.hasIP,
      usesHTTPS := features.usesHTTPS,
      hasSuspiciousTLD := features.hasSuspiciousTLD,
      hasPunycode := features.hasPunycode,
      phishingKeywordScore := features.phishingKeywordCount * 10,
      urgentKeywordScore := features.urgentKeywordCount * 15,
      pathDepth := features.pathDepth,
      hasConsecutiveChars := features.hasConsecutiveChars,
      isShortener := features.isShortener,
      hasReadableParams := features.hasReadableParams,
      hasQualityDomain := features.hasQualityDomain,
      suspiciousEncoding := features.suspiciousEncoding,
      hasRandomParams := features.hasRandomParams }

/-- `MLEngine.predict`: deterministic scoring.  The score is exactly
integer-valued in the source (`Math.floor` is applied to the only scaled
term); the confidence is in exact hundredths. -/
def predict (f : MLFeatureVector) : Int × Int :=
  let bonus : Int :=
    (if f.hasReadableParams then 20 else 0) +
    (if f.hasQualityDomain then 15 else 0) +
    (if f.usesHTTPS && f.hasQualityDomain then 8 else 0)
  let lengthScore : Int :=
    if f.urlLength > 300 then (if f.hasReadableParams then 12 else 25)
    else if f.urlLength > 200 then (if f.hasReadableParams then 7 else 15)
    else if f.urlLength > 120 then (if f.hasReadableParams then 4 else 8)
    else 0
  let score : Int :=
    (if f.hasIP then 35 else 0) +
    (if f.hasPunycode then 30 else 0) +
    (if f.hasSuspiciousTLD then 28 else 0) +
    (if f.suspiciousEncoding then 30 else 0) +
    (if f.hasRandomParams then 22 else 0) +
    lengthScore +
    (if f.domainLength > 40 then 18 else if f.domainLength > 25 then 10 else 0) +
    (if f.subdomainCount > 5 then 30 else if f.subdomainCount > 3 then 18
     else if f.subdomainCount > 2 then 10 else 0) +
    (if f.pathDepth > 10 then 15 else if f.pathDepth > 7 then 8 else 0) +
    (if fracGt f.digitRatio 2 5 then 20 else if fracGt f.digitRatio 1 4 then 12 else 0) +
    (if fracGt f.specialCharRatio 7 20 then 18
     else if fracGt f.specialCharRatio 1 5 then 10 else 0) +
    (if fracGt f.consonantRatio 7 10 then 12 else 0) +
    (if f.entropyGt48 then 25 else if f.entropyGt42 then 15 else if f.entropyGt38 then 8 else 0) +
    (if f.hasConsecutiveChars then 12 else 0) +
    min (f.phishingKeywordScore : Int) 35 +
    min (f.urgentKeywordScore : Int) 40 +
    (if f.isShortener then 12 else 0) +
    (if !f.usesHTTPS then 10 else 0)
  let confidence : Int := 70 +
    (if f.hasReadableParams then 8 else 0) +
    (if f.hasQualityDomain then 5 else 0) +
    (if f.hasIP then 15 else 0) +
    (if f.hasPunycode then 10 else 0) +
    (if f.hasSuspiciousTLD then 8 else 0) +
    (if f.suspiciousEncoding then 10 else 0) +
    (if f.hasRandomParams then 8 else 0) +
    (if f.subdomainCount > 5 then 10 else 0) +
    (if fracGt f.digitRatio 2 5 then 5 else 0) +
    (if f.entropyGt48 then 10 else 0) +
    (if f.urgentKeywordScore > 20 then 15 else 0) +
    (if f.isShortener then -10 else 0)
  let score := max 0 (score - bonus)
  (min 100 (max 0 score), min 100 (max 10 confidence))

/-- `MLEngine.analyze`: always exactly one `ml`-layer signal.  (The source
object carries two extra fields, `features` and `confidence`, beyond the
`DetectionLayer` shape; they are dropped here.) -/
def mlAnalyze (url : Str) : DetectionLayer :=
  let f := extractMLFeatures url
  let p := predict f
  { layer := .ml,
    method := str ("ML Model (") ++ natStr p.2.toNat ++ str ("% confidence)"),
    score := p.1,
    details := str ("ML prediction: ") ++ natStr p.1.toNat ++ str ("/100"),
    matched := decide (p.1 > 45) }

/-! ## ThreatAnalyzer (threat-analyzer.ts and the part_002 revision)

The repository carries two materially different aggregation strategies:
`threat-analyzer.ts` (suffix `A` below) returns as soon as a Signature-layer
signal matches, skipping the heuristic and ML layers, while the part_002
revision (suffix `B`) always runs all layers and applies the priority rule
only inside `buildResult`.  Both are embedded. -/

structure AnalyzerState where
  cache : List (Str × CacheEntry)
  whitelist : List Str
deriving DecidableEq

def emptyState : AnalyzerState := ⟨[], []⟩

def wlContains (wl : List Str) (d : Str) : Bool := wl.any (fun x => decide (x = d))

/-- `addToWhitelist` (`Set.add`: no duplicate entries). -/
def addToWhitelist (st : AnalyzerState) (domain : Str) : AnalyzerState :=
  let d := lowerStr domain
  { st with whitelist := if wlContains st.whitelist d then st.whitelist else st.whitelist ++ [d] }

/-- `removeFromWhitelist`. -/
def removeFromWhitelist (st : AnalyzerState) (domain : Str) : AnalyzerState :=
  let d := lowerStr domain
  { st with whitelist := st.whitelist.filter (fun x => !decide (x = d)) }

/-- Ascending insertion sort by timestamp, modelling
`entries.sort((a, b) => a[1].timestamp - b[1].timestamp)`. -/
def insertByTime (p : Str × CacheEntry) : List (Str × CacheEntry) → List (Str × CacheEntry)
  | [] => [p]
  | q :: rest =>
    if p.2.timestamp < q.2.timestamp then p :: q :: rest else q :: insertByTime p rest

def sortByTime : List (Str × CacheEntry) → List (Str × CacheEntry)
  | [] => []
  | p :: rest => insertByTime p (sortByTime rest)

/-- `Map.set`: update in place, else append in insertion order. -/
def mapSet (m : List (Str × CacheEntry)) (k : Str) (v : CacheEntry) :
    List (Str × CacheEntry) :=
  if (m.find? (fun p => decide (p.1 = k))).isSome then
    m.map (fun p => if p.1 = k then (k, v) else p)
  else m ++ [(k, v)]

/-- `cacheResult` (threat-analyzer.ts lines 181-195): evict the oldest 20%
(`Math.floor(10000 * 0.2) = 2000` entries) when full, then insert. -/
def cacheResult (cache : List (Str × CacheEntry)) (url : Str)
    (result : ThreatAnalysisResult) (now : Nat) : List (Str × CacheEntry) :=
  let cache1 :=
    if MAX_CACHE_SIZE ≤ cache.length then
      let toRemove := ((sortByTime cache).take (MAX_CACHE_SIZE / 5)).map (fun p => p.1)
      cache.filter (fun p => !wlContains toRemove p.1)
    else cache
  mapSet cache1 url ⟨result, now⟩

/-- `buildResult` of threat-analyzer.ts (lines 102-147): the score/flag loop,
which breaks at the first matched Signature-layer signal. -/
def scanLayersA : List DetectionLayer → Int → Int × Bool
  | [], acc => (acc, false)
  | l :: ls, acc =>
    if l.layer = .signature ∧ l.matched then (100, true)
    else scanLayersA ls (acc + (if l.matched then l.score else 0))

def buildResultA (url : Str) (layers : List DetectionLayer) (now : Nat) :
    ThreatAnalysisResult :=
  let scan := scanLayersA layers 0
  let totalScore := min 100 scan.1
  let totalScore := if scan.2 then 100 else totalScore
  let riskLevel := getRiskLevel totalScore
  let isMalicious := decide (riskLevel = .high) || decide (riskLevel = .critical)
  let matchedLayers := layers.filter (fun l => l.matched)
  let details :=
    if 0 < matchedLayers.length then
      str ("Detected by: ") ++ joinWith (str (", ")) (matchedLayers.map (fun l => l.method))
    else str ("No threats detected")
  { url := url, isMalicious := isMalicious, riskScore := totalScore,
    riskLevel := riskLevel, detectionLayers := layers, timestamp := now,
    details := details }

/-- The external-API filter of the part_002 `buildResult`. -/
def isExtAPILayer (l : DetectionLayer) : Bool :=
  decide (l.layer = .signature) &&
    (containsSub l.method (str ("VirusTotal")) ||
     containsSub l.method (str ("Google Safe Browsing")) ||
     containsSub l.method (str ("PhishTank")))

/-- Sum of the scores of matched signals (the traditional-scoring loop). -/
def sumMatched (layers : List DetectionLayer) : Int :=
  layers.foldl (fun acc l => acc + (if l.matched then l.score else 0)) 0

/-- `buildResult` of the part_002 revision (lines 104-173). -/
def buildResultB (url : Str) (layers : List DetectionLayer) (now : Nat) :
    ThreatAnalysisResult :=
  let extLayers := layers.filter isExtAPILayer
  let otherLayers := layers.filter (fun l => !isExtAPILayer l)
  let extDetected := extLayers.any (fun l => l.matched)
  if extDetected then
    let matchedAPIs := extLayers.filter (fun l => l.matched)
    let otherMatched := otherLayers.filter (fun l => l.matched)
    let details :=
      str ("Flagged by external threat intelligence: ") ++
        joinWith (str (", ")) (matchedAPIs.map (fun l => l.method)) ++
        (if 0 < otherMatched.length then
          str (" | Also detected by: ") ++
            joinWith (str (", ")) (otherMatched.map (fun l => l.method))
         else [])
    { url := url, isMalicious := true, riskScore := 100, riskLevel := .critical,
      detectionLayers := layers, timestamp := now, details := details }
  else
    let totalScore := min 100 (sumMatched layers)
    let riskLevel := getRiskLevel totalScore
    let isMalicious := decide (riskLevel = .high) || decide (riskLevel = .critical)
    let matchedLayers := layers.filter (fun l => l.matched)
    let details :=
      (if 0 < matchedLayers.length then
        str ("Detected by: ") ++ joinWith (str (", ")) (matchedLayers.map (fun l => l.method))
       else str ("No threats detected")) ++
      (if 0 < extLayers.length then str (" | External threat intelligence: Clean") else [])
    { url := url, isMalicious := isMalicious, riskScore := totalScore,
      riskLevel := riskLevel, detectionLayers := layers, timestamp := now,
      details := details }

/-- The whitelist short-circuit result (threat-analyzer.ts lines 27-42). -/
def whitelistResult (normalizedUrl : Str) (now : Nat) : ThreatAnalysisResult :=
  { url := normalizedUrl, isMalicious := false, riskScore := 0, riskLevel := .safe,
    detectionLayers := [{ layer := .signature, method := str ("Whitelist"), score := 0,
                          details := str ("Domain is whitelisted"), matched := false }],
    timestamp := now, details := str ("Whitelisted domain") }

/-- The fail-open result of the top-level `catch` (lines 81-95); the `url`
field is the raw, un-normalized argument. -/
def errorResult (rawUrl : Str) (now : Nat) : ThreatAnalysisResult :=
  { url := rawUrl, isMalicious := false, riskScore := 0, riskLevel := .safe,
    detectionLayers := [{ layer := .signature, method := str ("Error Handler"), score := 0,
                          details := str ("Analysis error"), matched := false }],
    timestamp := now, details := str ("Error during analysis") }

/-- The un-cached layer run of the threat-analyzer.ts `analyze`: signature
layer first; on any match, build and cache the result immediately without
running the heuristic or ML layer. -/
def runLayersA (st : AnalyzerState) (now : Nat) (gw : GatewayEnv) (rawUrl n : Str) :
    ThreatAnalysisResult × AnalyzerState :=
  let sigLayers := checkAllAPIs n gw
  if sigLayers.any (fun l => l.matched) then
    let r := buildResultA n sigLayers now
    (r, { st with cache := cacheResult st.cache n r now })
  else
    match heuristicAnalyze n with
    | none => (errorResult rawUrl now, st)
    | some heurLayers =>
      let allLayers := sigLayers ++ heurLayers ++ [mlAnalyze n]
      let r := buildResultA n allLayers now
      (r, { st with cache := cacheResult st.cache n r now })

/-- The un-cached layer run of the part_002 `analyze`: all three layers
always run; the priority rule is applied only inside `buildResult`. -/
def runLayersB (st : AnalyzerState) (now : Nat) (gw : GatewayEnv) (rawUrl n : Str) :
    ThreatAnalysisResult × AnalyzerState :=
  let sigLayers := checkAllAPIs n gw
  match heuristicAnalyze n with
  | none => (errorResult rawUrl now, st)
  | some heurLayers =>
    let allLayers := sigLayers ++ heurLayers ++ [mlAnalyze n]
    let r := buildResultB n allLayers now
    (r, { st with cache := cacheResult st.cache n r now })

/-- `ThreatAnalyzer.analyze` of threat-analyzer.ts (lines 19-97), returning
the result together with the updated analyzer state.  A `parseURL` failure
on the normalized URL models the `new URL(normalizedUrl)` throw that lands
in the top-level catch. -/
def analyzeA (st : AnalyzerState) (now : Nat) (gw : GatewayEnv) (url : Str) :
    ThreatAnalysisResult × AnalyzerState :=
  let n := normalizeURL url
  match parseURL n with
  | none => (errorResult url now, st)
  | some o =>
    if wlContains st.whitelist o.host then (whitelistResult n now, st)
    else
      match st.cache.find? (fun p => decide (p.1 = n)) with
      | some p =>
        if now - p.2.timestamp < SAFE_URL_TTL then (p.2.result, st)
        else runLayersA st now gw url n
      | none => runLayersA st now gw url n

/-- `ThreatAnalyzer.analyze` of the part_002 revision (lines 25-99). -/
def analyzeB (st : AnalyzerState) (now : Nat) (gw : GatewayEnv) (url : Str) :
    ThreatAnalysisResult × AnalyzerState :=
  let n := normalizeURL url
  match parseURL n with
  | none => (errorResult url now, st)
  | some o =>
    if wlContains st.whitelist o.host then (whitelistResult n now, st)
    else
      match st.cache.find? (fun p => decide (p.1 = n)) with
      | some p =>
        if now - p.2.timestamp < SAFE_URL_TTL then (p.2.result, st)
        else runLayersB st now gw url n
      | none => runLayersB st now gw url n

/-! ### Auxiliary definitions used by the verification -/

def heurOK (l : DetectionLayer) : Prop := l.layer = .heuristic ∧ 0 ≤ l.score

/-- Is there a fresh cache entry for `n`?  (`cached && Date.now() -
cached.timestamp < CONFIG.CACHE.SAFE_URL_TTL`). -/
def cacheFresh (st : AnalyzerState) (n : Str) (now : Nat) : Bool :=
  match st.cache.find? (fun p => decide (p.1 = n)) with
  | some p => decide (now - p.2.timestamp < SAFE_URL_TTL)
  | none => false

/-! ### Concrete gateway environments for witnesses -/

/-- All services unconfigured / failing closed: no cache hits, Safe Browsing
falls back to the local blacklist, PhishTank and VirusTotal report
not-configured. -/
def gwNeutral : GatewayEnv :=
  { sb := { cacheHit := none, rateOk := true, keyConfigured := false,
            fetch := .netError [] },
    pt := { keyConfigured := false, fetch := .netError [] },
    vt := { keyConfigured := false, rateOk := true, fetch := .netError [] } }

/-- Safe Browsing holds a fresh cached malicious verdict; the other two
services come back clean. -/
def gwMalicious : GatewayEnv :=
  { sb := { cacheHit := some true, rateOk := true, keyConfigured := true,
            fetch := .ok false 0 },
    pt := { keyConfigured := true, fetch := .ok false 0 },
    vt := { keyConfigured := true, rateOk := true, fetch := .ok false 0 } }

/-- Safe Browsing is rate-limited; the other two succeed cleanly. -/
def gwRateLimited : GatewayEnv :=
  { sb := { cacheHit := none, rateOk := false, keyConfigured := true,
            fetch := .ok false 0 },
    pt := { keyConfigured := true, fetch := .ok false 0 },
    vt := { keyConfigured := true, rateOk := true, fetch := .ok false 0 } }

structure WFURL (o : URLObj) : Prop where
  scheme_ok : schemeOk o.scheme = true
  scheme_lower : lowerStr o.scheme = o.scheme
  host_ne : o.host ≠ []
  host_lower : lowerStr o.host = o.host
  host_chars : ∀ c ∈ o.host, notDelim c = true ∧ notColon c = true
  port_digits : o.port.all isDigitC = true
  port_nondefault :
    ((decide (o.scheme = str ("https")) && decide (o.port = str ("443"))) ||
     (decide (o.scheme = str ("http")) && decide (o.port = str ("80")))) = false
  path_chars : ∀ c ∈ o.path, notQH c = true
  path_head : o.path = [] ∨ o.path.head? = some 47
  query_chars : ∀ c ∈ o.query, notHash c = true
  query_head : o.query = [] ∨ o.query.head? = some 63

/-- `serialNoHash` with the path/query part abstracted as one tail. -/
def serialCore (o : URLObj) (tail : Str) : Str :=
  o.scheme ++ str ("://") ++ o.host ++
    (if o.port.isEmpty then [] else 58 :: o.port) ++ tail

/-- The trailing-slash strip of `normalizeURL`. -/
def stripSlash (x : Str) : Str := if x.getLast? = some 47 then x.dropLast else x

/-- Lowercasing the path and query (and clearing the hash): the shape of a
re-parsed lowered URL. -/
def lowerObj (o : URLObj) : URLObj :=
  ⟨o.scheme, o.host, o.port, lowerStr o.path, lowerStr o.query, []⟩

/-- The canonical re-parsed form: an empty path becomes `"/"`. -/
def pathCanon (o : URLObj) : URLObj :=
  ⟨o.scheme, o.host, o.port, if o.path.isEmpty then [47] else o.path, o.query, []⟩

/-- The scheme/host/port prefix of a serialization. -/
def authPart (o : URLObj) : Str :=
  o.scheme ++ str ("://") ++ o.host ++ (if o.port.isEmpty then [] else 58 :: o.port)

/-! ## Lemmas for the normalization (C4) analysis -/

theorem asciiLower_idem (c : Nat) : asciiLower (asciiLower c) = asciiLower c := by
  unfold asciiLower
  split_ifs <;> omega

theorem lowerStr_idem (s : Str) : lowerStr (lowerStr s) = lowerStr s := by
  induction s with
  | nil => rfl
  | cons c r ih => simp only [lowerStr, List.map_cons] at *; rw [asciiLower_idem, ih]

theorem asciiLower_eq_low {c k : Nat} (hk : k < 65 ∨ (90 < k ∧ k < 97) ∨ 122 < k) :
    asciiLower c = k ↔ c = k := by
  unfold asciiLower
  split_ifs <;> omega

theorem notDelim_lower (c : Nat) : notDelim (asciiLower c) = notDelim c := by
  unfold notDelim asciiLower
  split_ifs <;> rw [Bool.eq_iff_iff] <;> simp <;> omega

theorem notColon_lower (c : Nat) : notColon (asciiLower c) = notColon c := by
  unfold notColon asciiLower
  split_ifs <;> rw [Bool.eq_iff_iff] <;> simp <;> omega

theorem notQH_lower (c : Nat) : notQH (asciiLower c) = notQH c := by
  unfold notQH asciiLower
  split_ifs <;> rw [Bool.eq_iff_iff] <;> simp <;> omega

theorem notHash_lower (c : Nat) : notHash (asciiLower c) = notHash c := by
  unfold notHash asciiLower
  split_ifs <;> rw [Bool.eq_iff_iff] <;> simp <;> omega

theorem isDigitC_lower (c : Nat) : isDigitC (asciiLower c) = isDigitC c := by
  unfold isDigitC asciiLower
  split_ifs <;> rw [Bool.eq_iff_iff] <;> simp <;> omega

theorem isAlphaC_lower (c : Nat) : isAlphaC (asciiLower c) = isAlphaC c := by
  unfold isAlphaC asciiLower
  split_ifs <;> rw [Bool.eq_iff_iff] <;> simp <;> omega

theorem schemeOkChar_lower (c : Nat) : schemeOkChar (asciiLower c) = schemeOkChar c := by
  unfold schemeOkChar
  rw [isAlphaC_lower, isDigitC_lower, Bool.eq_iff_iff]
  simp only [Bool.or_eq_true, decide_eq_true_eq]
  rw [asciiLower_eq_low (by omega), asciiLower_eq_low (by omega),
    asciiLower_eq_low (by omega)]

/-- A string of characters below code 97 is fixed under lowercasing iff…
(it always is); more useful: equality with such a string is preserved. -/
theorem lowerStr_eq_low {xs ys : Str}
    (hys : ∀ y ∈ ys, y < 65 ∨ (90 < y ∧ y < 97) ∨ 122 < y) :
    lowerStr xs = ys ↔ xs = ys := by
  induction xs generalizing ys with
  | nil => cases ys <;> simp [lowerStr]
  | cons c r ih =>
    cases ys with
    | nil => simp [lowerStr]
    | cons y t =>
      simp only [lowerStr, List.map_cons, List.cons.injEq]
      exact and_congr (asciiLower_eq_low (hys y (List.mem_cons_self _ _)))
        (ih (fun z hz => hys z (List.mem_cons_of_mem _ hz)))

theorem asciiLower_fix {c : Nat} (h : c < 65 ∨ 90 < c) : asciiLower c = c := by
  unfold asciiLower
  split_ifs <;> omega

theorem lowerStr_fix {xs : Str} (h : ∀ c ∈ xs, c < 65 ∨ 90 < c) : lowerStr xs = xs := by
  induction xs with
  | nil => rfl
  | cons c r ih =>
    simp only [lowerStr, List.map_cons] at *
    rw [asciiLower_fix (h c (List.mem_cons_self _ _)),
      ih (fun z hz => h z (List.mem_cons_of_mem _ hz))]

theorem lowerStr_fix_of_digits {xs : Str} (h : xs.all isDigitC = true) :
    lowerStr xs = xs := by
  refine lowerStr_fix (fun c hc => ?_)
  have := List.all_eq_true.mp h c hc
  unfold isDigitC at this
  simp only [Bool.and_eq_true, decide_eq_true_eq] at this
  omega

/-! ### List scanning helpers -/

theorem tw_all {p : Nat → Bool} {a : Str} (h : ∀ c ∈ a, p c = true) :
    a.takeWhile p = a := by
  induction a with
  | nil => rfl
  | cons c r ih =>
    rw [List.takeWhile_cons, h c (List.mem_cons_self _ _), if_pos rfl,
      ih (fun z hz => h z (List.mem_cons_of_mem _ hz))]

theorem dw_all {p : Nat → Bool} {a : Str} (h : ∀ c ∈ a, p c = true) :
    a.dropWhile p = [] := by
  induction a with
  | nil => rfl
  | cons c r ih =>
    rw [List.dropWhile_cons, h c (List.mem_cons_self _ _), if_pos rfl,
      ih (fun z hz => h z (List.mem_cons_of_mem _ hz))]

theorem tw_append_all {p : Nat → Bool} {a b : Str} (h : ∀ c ∈ a, p c = true) :
    (a ++ b).takeWhile p = a ++ b.takeWhile p := by
  induction a with
  | nil => rfl
  | cons c r ih =>
    rw [List.cons_append, List.takeWhile_cons, h c (List.mem_cons_self _ _), if_pos rfl,
      ih (fun z hz => h z (List.mem_cons_of_mem _ hz)), List.cons_append]

theorem dw_append_all {p : Nat → Bool} {a b : Str} (h : ∀ c ∈ a, p c = true) :
    (a ++ b).dropWhile p = b.dropWhile p := by
  induction a with
  | nil => rfl
  | cons c r ih =>
    rw [List.cons_append, List.dropWhile_cons, h c (List.mem_cons_self _ _), if_pos rfl,
      ih (fun z hz => h z (List.mem_cons_of_mem _ hz))]

theorem tw_cons_false {p : Nat → Bool} {x : Nat} {r : Str} (h : p x = false) :
    (x :: r).takeWhile p = [] := by
  rw [List.takeWhile_cons, h]
  rfl

theorem dw_cons_false {p : Nat → Bool} {x : Nat} {r : Str} (h : p x = false) :
    (x :: r).dropWhile p = x :: r := by
  rw [List.dropWhile_cons, h]
  rfl

theorem mem_tw {p : Nat → Bool} {a : Str} : ∀ c ∈ a.takeWhile p, p c = true := by
  induction a with
  | nil => intro c hc; cases hc
  | cons x r ih =>
    intro c hc
    rw [List.takeWhile_cons] at hc
    rcases hx : p x with _ | _
    · rw [hx] at hc; cases hc
    · rw [hx] at hc
      simp only [if_pos rfl] at hc
      rcases List.mem_cons.mp hc with rfl | hc
      · exact hx
      · exact ih c hc

theorem dw_head_false {p : Nat → Bool} {a : Str} {h : Nat} {t : Str}
    (hd : a.dropWhile p = h :: t) : p h = false := by
  induction a with
  | nil => cases hd
  | cons x r ih =>
    rw [List.dropWhile_cons] at hd
    rcases hx : p x with _ | _
    · rw [hx] at hd
      simp only [Bool.false_eq_true, if_false] at hd
      cases hd
      exact hx
    · rw [hx] at hd
      simp only [if_pos rfl] at hd
      exact ih hd

theorem head?_dropLast {l : Str} (h : l.dropLast ≠ []) : l.dropLast.head? = l.head? := by
  match l with
  | [] => simp at h
  | [a] => simp at h
  | a :: b :: t => simp

theorem getLast?_append_ne {a b : Str} (h : b ≠ []) :
    (a ++ b).getLast? = b.getLast? := by
  induction a with
  | nil => rfl
  | cons x r ih =>
    rw [List.cons_append, List.getLast?_cons, ih]
    cases b with
    | nil => exact absurd rfl h
    | cons y t => simp [List.getLast?_cons]

theorem dropLast_append_ne {a b : Str} (h : b ≠ []) :
    (a ++ b).dropLast = a ++ b.dropLast := by
  induction a with
  | nil => rfl
  | cons x r ih =>
    rw [List.cons_append]
    cases hcase : r ++ b with
    | nil =>
      rcases List.append_eq_nil.mp hcase with ⟨-, rfl⟩
      exact absurd rfl h
    | cons y t =>
      rw [List.dropLast_cons₂, ← hcase, ih, List.cons_append]

theorem eq_dropLast_append {l : Str} {x : Nat} (h : l.getLast? = some x) :
    l = l.dropLast ++ [x] := by
  induction l with
  | nil => cases h
  | cons a r ih =>
    cases r with
    | nil =>
      simp [List.getLast?_cons] at h
      subst h
      rfl
    | cons b t =>
      rw [List.getLast?_cons_cons] at h
      rw [List.dropLast_cons₂, List.cons_append, ← ih h]

theorem lowerStr_append (a b : Str) : lowerStr (a ++ b) = lowerStr a ++ lowerStr b :=
  List.map_append _ _ _

theorem lowerStr_dropLast (l : Str) : lowerStr l.dropLast = (lowerStr l).dropLast := by
  unfold lowerStr
  exact List.map_dropLast _ _

theorem lowerStr_getLast_47 (l : Str) :
    ((lowerStr l).getLast? = some 47) ↔ (l.getLast? = some 47) := by
  induction l with
  | nil => simp [lowerStr]
  | cons a r ih =>
    cases r with
    | nil =>
      simp only [lowerStr, List.map_cons, List.map_nil, List.getLast?_singleton,
        Option.some.injEq]
      exact asciiLower_eq_low (by omega)
    | cons b t =>
      rw [List.getLast?_cons_cons, ← ih]
      simp only [lowerStr, List.map_cons]
      rw [List.getLast?_cons_cons]

/-! ### splitScheme lemmas -/

theorem lowerStr_take (n : Nat) (l : Str) : lowerStr (l.take n) = (lowerStr l).take n := by
  unfold lowerStr
  exact List.map_take _ _ _

theorem lowerStr_drop (n : Nat) (l : Str) : lowerStr (l.drop n) = (lowerStr l).drop n := by
  unfold lowerStr
  exact List.map_drop _ _ _

theorem splitScheme_lower (s : Str) :
    splitScheme (lowerStr s) = (splitScheme s).map (fun p => (lowerStr p.1, lowerStr p.2)) := by
  induction s with
  | nil => rfl
  | cons c rest ih =>
    show splitScheme (asciiLower c :: lowerStr rest) = _
    unfold splitScheme
    have hcond : (asciiLower c = 58 ∧ (lowerStr rest).take 2 = [47, 47]) ↔
        (c = 58 ∧ rest.take 2 = [47, 47]) := by
      rw [asciiLower_eq_low (by omega), ← lowerStr_take,
        lowerStr_eq_low (by intro y hy; simp at hy; rcases hy with rfl | rfl <;> omega)]
    split_ifs with h1 h2 h2
    · simp [← lowerStr_drop, lowerStr]
    · exact absurd (hcond.mp h1) h2
    · exact absurd (hcond.mpr h2) h1
    · rw [ih]
      cases splitScheme rest <;> rfl

theorem schemeOk_no_colon {s : Str} (h : schemeOk s = true) : ∀ c ∈ s, c ≠ 58 := by
  intro c hc
  cases s with
  | nil => cases hc
  | cons a r =>
    unfold schemeOk at h
    simp only [Bool.and_eq_true] at h
    rcases List.mem_cons.mp hc with rfl | hc
    · intro hx
      subst hx
      unfold isAlphaC at h
      simp only [Bool.or_eq_true, Bool.and_eq_true, decide_eq_true_eq] at h
      omega
    · intro hx
      subst hx
      have := List.all_eq_true.mp h.2 _ hc
      unfold schemeOkChar isAlphaC isDigitC at this
      simp only [Bool.or_eq_true, Bool.and_eq_true, decide_eq_true_eq] at this
      omega

theorem splitScheme_append {s : Str} (r : Str) (h : ∀ c ∈ s, c ≠ 58) :
    splitScheme (s ++ 58 :: 47 :: 47 :: r) = some (s, r) := by
  induction s with
  | nil =>
    unfold splitScheme
    simp
  | cons c rest ih =>
    rw [List.cons_append]
    unfold splitScheme
    rw [if_neg, ih (fun z hz => h z (List.mem_cons_of_mem _ hz))]
    · rfl
    · rintro ⟨rfl, -⟩
      exact h 58 (List.mem_cons_self _ _) rfl

/-! ### parseURL commutes with ASCII lowercasing -/

theorem tw_lower {p : Nat → Bool} (hp : ∀ c, p (asciiLower c) = p c) (l : Str) :
    (lowerStr l).takeWhile p = lowerStr (l.takeWhile p) := by
  induction l with
  | nil => rfl
  | cons c r ih =>
    show (asciiLower c :: lowerStr r).takeWhile p = _
    rw [List.takeWhile_cons, hp c, List.takeWhile_cons]
    cases hc : p c
    · rfl
    · simp only [if_pos rfl]
      rw [ih]
      rfl

theorem dw_lower {p : Nat → Bool} (hp : ∀ c, p (asciiLower c) = p c) (l : Str) :
    (lowerStr l).dropWhile p = lowerStr (l.dropWhile p) := by
  induction l with
  | nil => rfl
  | cons c r ih =>
    show (asciiLower c :: lowerStr r).dropWhile p = _
    rw [List.dropWhile_cons, hp c, List.dropWhile_cons]
    cases hc : p c
    · rfl
    · simpa only [if_pos rfl] using ih

theorem all_lower {p : Nat → Bool} (hp : ∀ c, p (asciiLower c) = p c) (l : Str) :
    (lowerStr l).all p = l.all p := by
  induction l with
  | nil => rfl
  | cons c r ih =>
    show (asciiLower c :: lowerStr r).all p = _
    rw [List.all_cons, List.all_cons, hp c, ih]

theorem isEmpty_lower (l : Str) : (lowerStr l).isEmpty = l.isEmpty := by
  cases l <;> rfl

theorem parse_lower (u : Str) :
    parseURL (lowerStr u) =
      (parseURL u).map (fun o => ⟨o.scheme, o.host, o.port, lowerStr o.path,
        lowerStr o.query, lowerStr o.hash⟩) := by
  have h443 : ∀ xs : Str, (decide (lowerStr xs = str ("443")) : Bool)
      = decide (xs = str ("443")) :=
    fun xs => decide_eq_decide.mpr (lowerStr_eq_low (by decide))
  have h80 : ∀ xs : Str, (decide (lowerStr xs = str ("80")) : Bool)
      = decide (xs = str ("80")) :=
    fun xs => decide_eq_decide.mpr (lowerStr_eq_low (by decide))
  unfold parseURL
  rw [splitScheme_lower]
  cases hs : splitScheme u with
  | none => rfl
  | some pr =>
    obtain ⟨sr, rest⟩ := pr
    simp only [Option.map_some']
    rw [lowerStr_idem, tw_lower notDelim_lower, dw_lower notDelim_lower,
      tw_lower notColon_lower, dw_lower notColon_lower, ← lowerStr_drop,
      all_lower isDigitC_lower, lowerStr_idem, tw_lower notQH_lower,
      dw_lower notQH_lower, tw_lower notHash_lower, dw_lower notHash_lower,
      h443, h80]
    split_ifs with hok hdig hemp hport
    · rfl
    · simp only [Option.map_some']
    · simp only [Option.map_some']
      rw [lowerStr_fix_of_digits hdig]
    · rfl
    · rfl

/-! ### Well-formedness of parsed URL objects -/

theorem mem_tw_subset {p : Nat → Bool} {a : Str} : ∀ c ∈ a.takeWhile p, c ∈ a := by
  induction a with
  | nil => intro c hc; cases hc
  | cons x r ih =>
    intro c hc
    rw [List.takeWhile_cons] at hc
    rcases hx : p x with _ | _
    · rw [hx] at hc; cases hc
    · rw [hx] at hc
      simp only [if_pos rfl] at hc
      rcases List.mem_cons.mp hc with rfl | hc
      · exact List.mem_cons_self _ _
      · exact List.mem_cons_of_mem _ (ih c hc)

theorem notDelim_cases {c : Nat} (h : notDelim c = false) : c = 47 ∨ c = 63 ∨ c = 35 := by
  unfold notDelim at h
  simp only [Bool.not_eq_false', Bool.or_eq_true, decide_eq_true_eq] at h
  tauto

theorem notQH_cases {c : Nat} (h : notQH c = false) : c = 63 ∨ c = 35 := by
  unfold notQH at h
  simp only [Bool.not_eq_false', Bool.or_eq_true, decide_eq_true_eq] at h
  tauto

theorem notHash_cases {c : Nat} (h : notHash c = false) : c = 35 := by
  unfold notHash at h
  simpa using h

theorem parse_wf_core (sr rest port : Str)
    (hok : schemeOk (lowerStr sr) = true)
    (hemp : ¬(lowerStr ((rest.takeWhile notDelim).takeWhile notColon)).isEmpty = true)
    (hpd : port.all isDigitC = true)
    (hpnd : ((decide (lowerStr sr = str ("https")) && decide (port = str ("443"))) ||
      (decide (lowerStr sr = str ("http")) && decide (port = str ("80")))) = false) :
    WFURL ⟨lowerStr sr, lowerStr ((rest.takeWhile notDelim).takeWhile notColon), port,
      (rest.dropWhile notDelim).takeWhile notQH,
      ((rest.dropWhile notDelim).dropWhile notQH).takeWhile notHash,
      ((rest.dropWhile notDelim).dropWhile notQH).dropWhile notHash⟩ := by
  refine ⟨hok, lowerStr_idem sr, ?_, lowerStr_idem _, ?_, hpd, hpnd, ?_, ?_, ?_, ?_⟩
  · intro hx
    dsimp only at hx
    rw [hx] at hemp
    exact hemp rfl
  · intro c hc
    obtain ⟨c0, hc0, rfl⟩ := List.mem_map.mp hc
    rw [notDelim_lower, notColon_lower]
    exact ⟨mem_tw (p := notDelim) _ (mem_tw_subset _ hc0),
      mem_tw (p := notColon) _ hc0⟩
  · intro c hc
    exact mem_tw (p := notQH) _ hc
  · dsimp only
    rcases hafter : rest.dropWhile notDelim with _ | ⟨hd, t⟩
    · left
      rfl
    · rcases notDelim_cases (dw_head_false hafter) with rfl | rfl | rfl
      · right
        rw [List.takeWhile_cons]
        norm_num [notQH]
      · left
        exact tw_cons_false (by norm_num [notQH])
      · left
        exact tw_cons_false (by norm_num [notQH])
  · intro c hc
    exact mem_tw (p := notHash) _ hc
  · dsimp only
    rcases hr2 : (rest.dropWhile notDelim).dropWhile notQH with _ | ⟨hd, t⟩
    · left
      rfl
    · rcases notQH_cases (dw_head_false hr2) with rfl | rfl
      · right
        rw [List.takeWhile_cons]
        norm_num [notHash]
      · left
        exact tw_cons_false (by norm_num [notHash])

theorem parse_wf {u : Str} {o : URLObj} (h : parseURL u = some o) : WFURL o := by
  have e443 : (decide (([] : Str) = str ("443")) : Bool) = false := by decide
  have e80 : (decide (([] : Str) = str ("80")) : Bool) = false := by decide
  unfold parseURL at h
  rcases hs : splitScheme u with _ | pr
  · rw [hs] at h; cases h
  · obtain ⟨sr, rest⟩ := pr
    rw [hs] at h
    simp only at h
    split_ifs at h with hok hdig hemp
    all_goals try cases h
    · refine parse_wf_core sr rest [] hok hemp rfl ?_
      rw [e443, e80]
      simp
    · rename_i hp
      refine parse_wf_core sr rest _ hok hemp hdig ?_
      simpa using hp

/-! ### Re-parsing a serialized URL -/

theorem serialNoHash_eq (o : URLObj) :
    serialNoHash o = serialCore o ((if o.path.isEmpty then [47] else o.path) ++ o.query) := by
  unfold serialNoHash serialCore
  rw [List.append_assoc]

theorem digit_notDelim {c : Nat} (h : isDigitC c = true) : notDelim c = true := by
  unfold isDigitC at h
  unfold notDelim
  simp only [Bool.and_eq_true, decide_eq_true_eq] at h
  simp only [Bool.not_eq_true', Bool.or_eq_false_iff, decide_eq_false_iff_not]
  omega

theorem digit_notColon {c : Nat} (h : isDigitC c = true) : notColon c = true := by
  unfold isDigitC at h
  unfold notColon
  simp only [Bool.and_eq_true, decide_eq_true_eq] at h
  simp only [Bool.not_eq_true', decide_eq_false_iff_not]
  omega

theorem isEmpty_false_of_ne {l : Str} (h : l ≠ []) : l.isEmpty = false := by
  cases l with
  | nil => exact absurd rfl h
  | cons a r => rfl

theorem parse_serial_core (o : URLObj) (hwf : WFURL o) (tail : Str)
    (htail : tail = [] ∨ ∃ h t, tail = h :: t ∧ notDelim h = false) :
    parseURL (serialCore o tail) =
      some ⟨o.scheme, o.host, o.port, tail.takeWhile notQH,
        (tail.dropWhile notQH).takeWhile notHash,
        (tail.dropWhile notQH).dropWhile notHash⟩ := by
  have hsep : str ("://") = 58 :: 47 :: 47 :: [] := by decide
  have hshape : serialCore o tail = o.scheme ++ 58 :: 47 :: 47 ::
      ((o.host ++ (if o.port.isEmpty then [] else 58 :: o.port)) ++ tail) := by
    unfold serialCore
    rw [hsep]
    simp [List.append_assoc]
  have hallnd : ∀ c ∈ o.host ++ (if o.port.isEmpty then [] else 58 :: o.port),
      notDelim c = true := by
    intro c hc
    rcases List.mem_append.mp hc with hc | hc
    · exact (hwf.host_chars c hc).1
    · split_ifs at hc
      · cases hc
      · rcases List.mem_cons.mp hc with rfl | hc
        · decide
        · exact digit_notDelim (List.all_eq_true.mp hwf.port_digits c hc)
  have hnet : ((o.host ++ (if o.port.isEmpty then [] else 58 :: o.port)) ++ tail).takeWhile
      notDelim = o.host ++ (if o.port.isEmpty then [] else 58 :: o.port) := by
    rcases htail with rfl | ⟨h, t, rfl, hh⟩
    · rw [List.append_nil]
      exact tw_all hallnd
    · rw [tw_append_all hallnd, tw_cons_false hh, List.append_nil]
  have hafter : ((o.host ++ (if o.port.isEmpty then [] else 58 :: o.port)) ++ tail).dropWhile
      notDelim = tail := by
    rcases htail with rfl | ⟨h, t, rfl, hh⟩
    · rw [List.append_nil]
      exact dw_all hallnd
    · rw [dw_append_all hallnd, dw_cons_false hh]
  have hhostc : ∀ c ∈ o.host, notColon c = true := fun c hc => (hwf.host_chars c hc).2
  have hhostraw : (o.host ++ (if o.port.isEmpty then [] else 58 :: o.port)).takeWhile
      notColon = o.host := by
    split_ifs with hpe
    · rw [List.append_nil]
      exact tw_all hhostc
    · rw [tw_append_all hhostc, tw_cons_false (by decide), List.append_nil]
  have hportraw : ((o.host ++ (if o.port.isEmpty then [] else 58 :: o.port)).dropWhile
      notColon).drop 1 = o.port := by
    split_ifs with hpe
    · rw [List.append_nil, dw_all hhostc]
      cases hp : o.port with
      | nil => rfl
      | cons a r => rw [hp] at hpe; cases hpe
    · rw [dw_append_all hhostc, dw_cons_false (by decide)]
      rfl
  unfold parseURL
  rw [hshape, splitScheme_append _ (schemeOk_no_colon hwf.scheme_ok)]
  simp only [hwf.scheme_lower, hwf.scheme_ok, if_true, hnet, hafter, hhostraw, hportraw,
    hwf.port_digits, hwf.host_lower, isEmpty_false_of_ne hwf.host_ne,
    Bool.false_eq_true, if_false, hwf.port_nondefault]

/-! ### Normalization of serialized URLs -/

theorem normalizeURL_some {u : Str} {o : URLObj} (hp : parseURL u = some o) :
    normalizeURL u = lowerStr (stripSlash (serialNoHash o)) := by
  unfold normalizeURL stripSlash
  rw [hp]

theorem normalizeURL_none {u : Str} (hp : parseURL u = none) :
    normalizeURL u = lowerStr u := by
  unfold normalizeURL
  rw [hp]

theorem lowerStr_stripSlash (x : Str) :
    lowerStr (stripSlash x) = stripSlash (lowerStr x) := by
  unfold stripSlash
  by_cases h : x.getLast? = some 47
  · rw [if_pos h, if_pos ((lowerStr_getLast_47 x).mpr h), lowerStr_dropLast]
  · rw [if_neg h, if_neg (fun hc => h ((lowerStr_getLast_47 x).mp hc))]

theorem serial_lower (o : URLObj) (hwf : WFURL o) :
    lowerStr (serialNoHash o) = serialNoHash (lowerObj o) := by
  unfold serialNoHash lowerObj
  simp only [lowerStr_append]
  have hsep : lowerStr (str ("://")) = str ("://") := by decide
  have hport : lowerStr (if o.port.isEmpty then ([] : Str) else 58 :: o.port) =
      (if o.port.isEmpty then ([] : Str) else 58 :: o.port) := by
    split_ifs with h1
    · rfl
    · show List.map asciiLower (58 :: o.port) = 58 :: o.port
      rw [List.map_cons]
      congr 1
      exact lowerStr_fix_of_digits hwf.port_digits
  have hpath : lowerStr (if o.path.isEmpty then ([47] : Str) else o.path) =
      (if (lowerStr o.path).isEmpty then ([47] : Str) else lowerStr o.path) := by
    rw [isEmpty_lower]
    split_ifs with h1
    · decide
    · rfl
  rw [hwf.scheme_lower, hwf.host_lower, hsep, hport, hpath]

theorem wf_lowerObj {o : URLObj} (hwf : WFURL o) : WFURL (lowerObj o) := by
  refine ⟨hwf.scheme_ok, hwf.scheme_lower, hwf.host_ne, hwf.host_lower, hwf.host_chars,
    hwf.port_digits, hwf.port_nondefault, ?_, ?_, ?_, ?_⟩
  · intro c hc
    obtain ⟨c0, hc0, rfl⟩ := List.mem_map.mp hc
    rw [notQH_lower]
    exact hwf.path_chars c0 hc0
  · rcases hwf.path_head with h | h
    · left
      show lowerStr o.path = []
      rw [h]
      rfl
    · right
      show (lowerStr o.path).head? = some 47
      cases hp : o.path with
      | nil => rw [hp] at h; cases h
      | cons a r =>
        rw [hp] at h
        simp only [List.head?_cons, Option.some.injEq] at h
        subst h
        rfl
  · intro c hc
    obtain ⟨c0, hc0, rfl⟩ := List.mem_map.mp hc
    rw [notHash_lower]
    exact hwf.query_chars c0 hc0
  · rcases hwf.query_head with h | h
    · left
      show lowerStr o.query = []
      rw [h]
      rfl
    · right
      show (lowerStr o.query).head? = some 63
      cases hp : o.query with
      | nil => rw [hp] at h; cases h
      | cons a r =>
        rw [hp] at h
        simp only [List.head?_cons, Option.some.injEq] at h
        subst h
        rfl

theorem lf_append {a b : Str} (h : lowerStr (a ++ b) = a ++ b) :
    lowerStr a = a ∧ lowerStr b = b := by
  rw [lowerStr_append] at h
  have := List.append_inj h (by simp [lowerStr])
  exact this

theorem serial_pathCanon (o : URLObj) : serialNoHash (pathCanon o) = serialNoHash o := by
  unfold serialNoHash pathCanon
  by_cases hpe : o.path.isEmpty = true
  · simp [hpe]
  · simp [hpe]

theorem tail_split (o : URLObj) (hwf : WFURL o) :
    ((if o.path.isEmpty then [47] else o.path) ++ o.query).takeWhile notQH =
      (if o.path.isEmpty then [47] else o.path) ∧
    ((if o.path.isEmpty then [47] else o.path) ++ o.query).dropWhile notQH = o.query := by
  have hall : ∀ c ∈ (if o.path.isEmpty then [47] else o.path), notQH c = true := by
    split_ifs with h1
    · intro c hc
      rcases List.mem_cons.mp hc with rfl | hc
      · decide
      · cases hc
    · exact hwf.path_chars
  rcases hwf.query_head with hqe | hqh
  · rw [hqe, List.append_nil]
    exact ⟨tw_all hall, dw_all hall⟩
  · cases hq : o.query with
    | nil => rw [hq] at hqh; cases hqh
    | cons qc qt =>
      rw [hq] at hqh
      simp only [List.head?_cons, Option.some.injEq] at hqh
      subst hqh
      rw [tw_append_all hall, tw_cons_false (by decide), List.append_nil,
        dw_append_all hall, dw_cons_false (by decide)]
      exact ⟨rfl, rfl⟩

theorem pathq_head (o : URLObj) (hwf : WFURL o) :
    (if o.path.isEmpty then [47] else o.path) ++ o.query = [] ∨
    ∃ h t, (if o.path.isEmpty then [47] else o.path) ++ o.query = h :: t ∧
      notDelim h = false := by
  right
  split_ifs with h1
  · exact ⟨47, o.query, rfl, by decide⟩
  · cases hp : o.path with
    | nil => simp [hp] at h1
    | cons a r =>
      rcases hwf.path_head with h | h
      · rw [h] at hp; cases hp
      · rw [hp] at h
        simp only [List.head?_cons, Option.some.injEq] at h
        subst h
        exact ⟨47, r ++ o.query, rfl, by decide⟩

theorem parse_serial (o : URLObj) (hwf : WFURL o) :
    parseURL (serialNoHash o) = some (pathCanon o) := by
  rw [serialNoHash_eq, parse_serial_core o hwf _ (pathq_head o hwf)]
  obtain ⟨h1, h2⟩ := tail_split o hwf
  rw [h1, h2]
  unfold pathCanon
  congr 1
  rw [tw_all hwf.query_chars, dw_all hwf.query_chars]

/-- Normalizing a canonical, already-lowercased serialization just strips
one trailing slash. -/
theorem norm_serial (o : URLObj) (hwf : WFURL o)
    (hfix : lowerStr (serialNoHash o) = serialNoHash o) :
    normalizeURL (serialNoHash o) = stripSlash (serialNoHash o) := by
  rw [normalizeURL_some (parse_serial o hwf), serial_pathCanon, lowerStr_stripSlash, hfix]

/-! ### Idempotence of normalization on parseable URLs -/

theorem serialCore_def (o : URLObj) (tail : Str) :
    serialCore o tail = authPart o ++ tail := rfl

theorem serialCore_append (o : URLObj) (a b : Str) :
    serialCore o (a ++ b) = serialCore o a ++ b := by
  unfold serialCore
  simp only [List.append_assoc]

/-- Stripping one trailing slash from a canonical lowercased serialization
yields a fixed point of `normalizeURL`. -/
theorem normalizeURL_stripped_fixed (o : URLObj) (hwf : WFURL o)
    (hfix : lowerStr (serialNoHash o) = serialNoHash o)
    (hlast : (stripSlash (serialNoHash o)).getLast? ≠ some 47) :
    normalizeURL (stripSlash (serialNoHash o)) = stripSlash (serialNoHash o) := by
  by_cases hw : (serialNoHash o).getLast? = some 47
  · have hss : stripSlash (serialNoHash o) = (serialNoHash o).dropLast := by
      unfold stripSlash
      exact if_pos hw
    rw [hss] at hlast ⊢
    by_cases hqe : o.query = []
    · have hp2 : (if o.path.isEmpty then [47] else o.path) ≠ [] := by
        split_ifs with h1
        · exact List.cons_ne_nil _ _
        · intro hc
          simp [hc] at h1
      rw [serialNoHash_eq, hqe, List.append_nil, serialCore_def] at hw hlast ⊢
      rw [getLast?_append_ne hp2] at hw
      rw [dropLast_append_ne hp2] at hlast ⊢
      by_cases hpd : (if o.path.isEmpty then [47] else o.path).dropLast = []
      · rw [hpd, List.append_nil] at hlast ⊢
        have hfixC : lowerStr (authPart o) = authPart o := by
          have h2 := hfix
          rw [serialNoHash_eq, hqe, List.append_nil, serialCore_def] at h2
          exact (lf_append h2).1
        have hpC : parseURL (authPart o) = some ⟨o.scheme, o.host, o.port, [], [], []⟩ := by
          have h0 := parse_serial_core o hwf [] (Or.inl rfl)
          rw [serialCore_def, List.append_nil] at h0
          simpa using h0
        rw [normalizeURL_some hpC]
        have hs0 : serialNoHash (⟨o.scheme, o.host, o.port, [], [], []⟩ : URLObj) =
            authPart o ++ [47] := by
          unfold serialNoHash authPart
          simp
        rw [hs0]
        unfold stripSlash
        rw [if_pos (by rw [getLast?_append_ne (List.cons_ne_nil _ _)]; rfl)]
        rw [dropLast_append_ne (List.cons_ne_nil _ _)]
        rw [show ([47] : Str).dropLast = [] from rfl, List.append_nil]
        exact hfixC
      · have hpne : o.path ≠ [] := by
          intro hc
          simp [hc] at hpd
        have hPeq : (if o.path.isEmpty then [47] else o.path) = o.path := by
          simp [isEmpty_false_of_ne hpne]
        rw [hPeq] at hw hpd hlast ⊢
        have hso' : serialNoHash (⟨o.scheme, o.host, o.port, o.path.dropLast, [], []⟩ : URLObj) =
            authPart o ++ o.path.dropLast := by
          unfold serialNoHash authPart
          simp [isEmpty_false_of_ne hpd]
        have hwf' : WFURL (⟨o.scheme, o.host, o.port, o.path.dropLast, [], []⟩ : URLObj) := by
          refine ⟨hwf.scheme_ok, hwf.scheme_lower, hwf.host_ne, hwf.host_lower, hwf.host_chars,
            hwf.port_digits, hwf.port_nondefault, ?_, ?_, ?_, ?_⟩
          · intro c hc
            exact hwf.path_chars c (by rw [eq_dropLast_append hw]; exact List.mem_append_left _ hc)
          · right
            show o.path.dropLast.head? = some 47
            rw [head?_dropLast hpd]
            rcases hwf.path_head with h | h
            · exact absurd h hpne
            · exact h
          · intro c hc
            cases hc
          · exact Or.inl rfl
        have hfix' :
            lowerStr (serialNoHash (⟨o.scheme, o.host, o.port, o.path.dropLast, [], []⟩ : URLObj)) =
              serialNoHash (⟨o.scheme, o.host, o.port, o.path.dropLast, [], []⟩ : URLObj) := by
          rw [hso']
          have h2 := hfix
          rw [serialNoHash_eq, hqe, List.append_nil, serialCore_def, hPeq] at h2
          obtain ⟨h3, h4⟩ := lf_append h2
          rw [lowerStr_append, h3, lowerStr_dropLast, h4]
        rw [← hso', norm_serial _ hwf' hfix']
        unfold stripSlash
        rw [if_neg (by rw [hso']; exact hlast)]
    · rw [serialNoHash_eq, serialCore_append] at hw hlast ⊢
      rw [getLast?_append_ne hqe] at hw
      rw [dropLast_append_ne hqe] at hlast ⊢
      have hso' :
          serialNoHash (⟨o.scheme, o.host, o.port, o.path, o.query.dropLast, []⟩ : URLObj) =
            serialCore o (if o.path.isEmpty then [47] else o.path) ++ o.query.dropLast := rfl
      have hwf' : WFURL (⟨o.scheme, o.host, o.port, o.path, o.query.dropLast, []⟩ : URLObj) := by
        refine ⟨hwf.scheme_ok, hwf.scheme_lower, hwf.host_ne, hwf.host_lower, hwf.host_chars,
          hwf.port_digits, hwf.port_nondefault, hwf.path_chars, hwf.path_head, ?_, ?_⟩
        · intro c hc
          exact hwf.query_chars c (by rw [eq_dropLast_append hw]; exact List.mem_append_left _ hc)
        · by_cases hdq : o.query.dropLast = []
          · exact Or.inl hdq
          · right
            show o.query.dropLast.head? = some 63
            rw [head?_dropLast hdq]
            rcases hwf.query_head with h | h
            · exact absurd h hqe
            · exact h
      have hfix' :
          lowerStr (serialNoHash (⟨o.scheme, o.host, o.port, o.path, o.query.dropLast, []⟩ :
              URLObj)) =
            serialNoHash (⟨o.scheme, o.host, o.port, o.path, o.query.dropLast, []⟩ : URLObj) := by
        rw [hso']
        have h2 := hfix
        rw [serialNoHash_eq, serialCore_append] at h2
        obtain ⟨h3, h4⟩ := lf_append h2
        rw [lowerStr_append, h3, lowerStr_dropLast, h4]
      rw [← hso', norm_serial _ hwf' hfix']
      unfold stripSlash
      rw [if_neg (by rw [hso']; exact hlast)]
  · have hss : stripSlash (serialNoHash o) = serialNoHash o := by
      unfold stripSlash
      exact if_neg hw
    rw [hss, norm_serial o hwf hfix, hss]

/-- C4: counterexample. `normalizeURL` strips only one trailing slash per
call, so a URL whose serialization ends in two slashes is not normalized to
a fixed point in one step. -/
theorem C4_counterexample :
    normalizeURL (normalizeURL (str ("https://example.com//"))) ≠
      normalizeURL (str ("https://example.com//")) := by decide

/-- C4 (amended): `normalizeURL` is idempotent on every input that the URL
constructor rejects, and on every parseable input whose normalized form does
not end with a slash — only a normalized form still ending in `"/"` (a root
path or a slash left by a doubled trailing slash) can change under a second
application. -/
theorem C4_normalize_idempotent_amended (u : Str)
    (h : parseURL u = none ∨ (normalizeURL u).getLast? ≠ some 47) :
    normalizeURL (normalizeURL u) = normalizeURL u := by
  rcases hp : parseURL u with _ | o
  · have h1 : normalizeURL u = lowerStr u := normalizeURL_none hp
    rw [h1]
    unfold normalizeURL
    rw [parse_lower, hp]
    exact lowerStr_idem u
  · have hwf := parse_wf hp
    have h3 : normalizeURL u = stripSlash (serialNoHash (lowerObj o)) := by
      rw [normalizeURL_some hp, lowerStr_stripSlash, serial_lower o hwf]
    have hwf1 := wf_lowerObj hwf
    have hfix1 : lowerStr (serialNoHash (lowerObj o)) = serialNoHash (lowerObj o) := by
      calc lowerStr (serialNoHash (lowerObj o))
          = lowerStr (lowerStr (serialNoHash o)) := by rw [serial_lower o hwf]
        _ = lowerStr (serialNoHash o) := lowerStr_idem _
        _ = serialNoHash (lowerObj o) := serial_lower o hwf
    rcases h with hnone | hlast
    · rw [hp] at hnone
      cases hnone
    · rw [h3] at hlast ⊢
      exact normalizeURL_stripped_fixed (lowerObj o) hwf1 hfix1 hlast

theorem C4_witness :
    (parseURL (str ("https://Example.com/Path")) = none ∨
      (normalizeURL (str ("https://Example.com/Path"))).getLast? ≠ some 47) ∧
    normalizeURL (normalizeURL (str ("https://Example.com/Path"))) =
      normalizeURL (str ("https://Example.com/Path")) :=
  ⟨Or.inr (by decide), C4_normalize_idempotent_amended (str ("https://Example.com/Path"))
    (Or.inr (by decide))⟩

theorem mem_optLayer_iff {x a : DetectionLayer} {c : Bool} :
    x ∈ optLayer c a ↔ c = true ∧ x = a := by
  unfold optLayer; split <;> simp_all

theorem heurOK_optLayer {l : DetectionLayer} {c : Bool} {a : DetectionLayer}
    (ha : heurOK a) (h : l ∈ optLayer c a) : heurOK l := by
  rw [mem_optLayer_iff] at h; exact h.2 ▸ ha

theorem heurOK_lengthRule {l : DetectionLayer} {t s : Bool} {n : Nat}
    (h : l ∈ lengthRule t s n) : heurOK l := by
  have hA : heurOK (heurLayer (str ("Excessive URL Length")) (W_LONG_URL * 2)
      (str ("URL length (") ++ natStr n ++ str (") is extremely suspicious"))) :=
    ⟨rfl, by simp [heurLayer, W_LONG_URL]⟩
  have hB : heurOK (heurLayer (str ("Long URL")) W_LONG_URL
      (str ("URL length (") ++ natStr n ++ str (") is suspicious"))) :=
    ⟨rfl, by simp [heurLayer, W_LONG_URL]⟩
  simp only [lengthRule] at h
  split_ifs at h
  all_goals first
    | exact absurd h (List.not_mem_nil _)
    | (rw [List.mem_singleton] at h; subst h; exact hA)
    | (rw [List.mem_singleton] at h; subst h; exact hB)

theorem heurOK_dgaRule {l : DetectionLayer} {dp : List Str}
    (h : l ∈ dgaRule dp) : heurOK l := by
  unfold dgaRule at h
  split_ifs at h <;>
    first
    | exact heurOK_optLayer ⟨rfl, by simp [heurLayer]⟩ h
    | exact absurd h (List.not_mem_nil _)

theorem heurOK_subdomainRule {l : DetectionLayer} {dp : List Str}
    (h : l ∈ subdomainRule dp) : heurOK l := by
  unfold subdomainRule at h
  split_ifs at h <;>
    first
    | exact heurOK_optLayer ⟨rfl, by simp [heurLayer]⟩ h
    | exact absurd h (List.not_mem_nil _)

theorem heurOK_brandRule {l : DetectionLayer} {b? : Option Str}
    (h : l ∈ brandRule b?) : heurOK l := by
  cases b? <;> simp_all [brandRule, heurLayer, heurOK]

/-- Every signal pushed by the heuristic rules carries the `heuristic` tag
and a non-negative score. -/
theorem heuristicRules_ok (url : Str) (o : URLObj) :
    ∀ l ∈ heuristicRules url o, l.layer = .heuristic ∧ 0 ≤ l.score := by
  intro l hl
  unfold heuristicRules at hl
  simp only [List.mem_append, or_assoc] at hl
  rcases hl with h|h|h|h|h|h|h|h|h|h|h|h|h|h|h|h|h|h
  · exact heurOK_optLayer ⟨rfl, by simp [heurLayer, W_IP_URL]⟩ h
  · exact heurOK_optLayer ⟨rfl, by simp [heurLayer, W_SUSPICIOUS_TLD]⟩ h
  · exact heurOK_optLayer ⟨rfl, by simp [heurLayer, W_PUNYCODE]⟩ h
  · exact heurOK_lengthRule h
  · exact heurOK_optLayer ⟨rfl, by simp [heurLayer, W_EXCESSIVE_SUBDOMAIN]⟩ h
  · exact heurOK_optLayer ⟨rfl, by simp [heurLayer, W_URL_ENCODING]⟩ h
  · exact heurOK_optLayer ⟨rfl, by simp only [heurLayer, W_SUSPICIOUS_KEYWORDS]; positivity⟩ h
  · exact heurOK_brandRule h
  · exact heurOK_optLayer ⟨rfl, by simp [heurLayer, W_NO_HTTPS]⟩ h
  · exact heurOK_optLayer ⟨rfl, by simp [heurLayer]⟩ h
  · exact heurOK_optLayer ⟨rfl, by simp [heurLayer]⟩ h
  · exact heurOK_optLayer ⟨rfl, by simp [heurLayer]⟩ h
  · exact heurOK_optLayer ⟨rfl, by simp [heurLayer]⟩ h
  · exact heurOK_optLayer ⟨rfl, by simp [heurLayer]⟩ h
  · exact heurOK_optLayer ⟨rfl, by simp only [heurLayer]; positivity⟩ h
  · exact heurOK_optLayer ⟨rfl, by simp [heurLayer]⟩ h
  · exact heurOK_dgaRule h
  · exact heurOK_subdomainRule h

/-! ### Gateway signal lemmas -/

theorem apiLayer_sig (name : Str) (r : APIResponse) : (apiLayer name r).layer = .signature := by
  unfold apiLayer; split_ifs <;> rfl

theorem apiLayer_score (name : Str) (r : APIResponse) :
    (apiLayer name r).score = 0 ∨ (apiLayer name r).score = 100 := by
  unfold apiLayer; split_ifs <;> simp

theorem apiLayer_matched_score (name : Str) (r : APIResponse)
    (h : (apiLayer name r).matched = true) : (apiLayer name r).score = 100 := by
  unfold apiLayer at *
  split_ifs at * <;> simp_all

theorem apiLayer_fail_unmatched (name : Str) (r : APIResponse)
    (h : r.success = false) : (apiLayer name r).matched = false := by
  unfold apiLayer
  split_ifs with h1 <;> simp_all

theorem apiLayer_ok (name : Str) (r : APIResponse) :
    (apiLayer name r).layer = .signature ∧ 0 ≤ (apiLayer name r).score ∧
      ((apiLayer name r).matched = true → (apiLayer name r).score = 100) := by
  refine ⟨apiLayer_sig _ _, ?_, apiLayer_matched_score _ _⟩
  rcases apiLayer_score name r with h | h <;> simp [h]

theorem checkAllAPIs_sig (url : Str) (gw : GatewayEnv) :
    ∀ l ∈ checkAllAPIs url gw, l.layer = .signature ∧ 0 ≤ l.score ∧
      (l.matched = true → l.score = 100) := by
  intro l hl
  unfold checkAllAPIs at hl
  simp only [List.mem_cons, List.not_mem_nil, or_false] at hl
  rcases hl with rfl | rfl | rfl <;> exact apiLayer_ok _ _

/-! ### ML signal lemmas -/

theorem mlAnalyze_layer (url : Str) : (mlAnalyze url).layer = .ml := rfl

theorem mlAnalyze_score_range (url : Str) :
    0 ≤ (mlAnalyze url).score ∧ (mlAnalyze url).score ≤ 100 := by
  unfold mlAnalyze predict
  constructor <;> simp

/-! ### buildResult lemmas -/

theorem getRiskLevel_100 : getRiskLevel 100 = .critical := by decide

theorem scanLayersA_matched {layers : List DetectionLayer} (acc : Int)
    (h : ∃ l ∈ layers, l.layer = .signature ∧ l.matched = true) :
    (scanLayersA layers acc).2 = true := by
  induction layers generalizing acc with
  | nil => simp at h
  | cons hd tl ih =>
    obtain ⟨l, hl, hsig, hm⟩ := h
    rcases List.mem_cons.mp hl with rfl | hl
    · simp [scanLayersA, hsig, hm]
    · unfold scanLayersA
      split
      · rfl
      · exact ih _ ⟨l, hl, hsig, hm⟩

theorem scanLayersA_nonneg {layers : List DetectionLayer} {acc : Int}
    (h : ∀ l ∈ layers, 0 ≤ l.score) (hacc : 0 ≤ acc) :
    0 ≤ (scanLayersA layers acc).1 := by
  induction layers generalizing acc with
  | nil => simpa [scanLayersA] using hacc
  | cons hd tl ih =>
    unfold scanLayersA
    split
    · simp
    · refine ih (fun l hl => h l (List.mem_cons_of_mem _ hl)) ?_
      have := h hd (List.mem_cons_self _ _)
      split <;> omega

/-- Any matched Signature signal forces the threat-analyzer.ts `buildResult`
to the Critical/100/malicious verdict. -/
theorem buildResultA_sig (url : Str) (layers : List DetectionLayer) (now : Nat)
    (h : ∃ l ∈ layers, l.layer = .signature ∧ l.matched = true) :
    (buildResultA url layers now).riskScore = 100 ∧
    (buildResultA url layers now).riskLevel = .critical ∧
    (buildResultA url layers now).isMalicious = true := by
  unfold buildResultA
  have h2 := scanLayersA_matched 0 h
  simp [h2, getRiskLevel_100]

theorem buildResultA_range (url : Str) (layers : List DetectionLayer) (now : Nat)
    (h : ∀ l ∈ layers, 0 ≤ l.score) :
    0 ≤ (buildResultA url layers now).riskScore ∧
      (buildResultA url layers now).riskScore ≤ 100 := by
  unfold buildResultA
  have h1 := scanLayersA_nonneg h (le_refl 0)
  dsimp only
  split <;> constructor <;> simp <;> omega

theorem sumMatched_cons (l : DetectionLayer) (ls : List DetectionLayer) :
    sumMatched (l :: ls) = (if l.matched then l.score else 0) + sumMatched ls := by
  unfold sumMatched
  rw [List.foldl_cons]
  have : ∀ (acc : Int) (xs : List DetectionLayer),
      xs.foldl (fun a x => a + (if x.matched then x.score else 0)) acc
        = acc + xs.foldl (fun a x => a + (if x.matched then x.score else 0)) 0 := by
    intro acc xs
    induction xs generalizing acc with
    | nil => simp
    | cons y ys ih =>
      rw [List.foldl_cons, List.foldl_cons, ih,
        ih ((0 : Int) + if y.matched = true then y.score else 0)]
      ring
  rw [this, zero_add]

theorem sumMatched_nonneg {layers : List DetectionLayer}
    (h : ∀ l ∈ layers, 0 ≤ l.score) : 0 ≤ sumMatched layers := by
  induction layers with
  | nil => simp [sumMatched]
  | cons hd tl ih =>
    rw [sumMatched_cons]
    have h0 := h hd (List.mem_cons_self _ _)
    have := ih (fun l hl => h l (List.mem_cons_of_mem _ hl))
    split <;> omega

theorem sumMatched_ge {layers : List DetectionLayer} {l0 : DetectionLayer}
    (hmem : l0 ∈ layers) (hm : l0.matched = true)
    (h : ∀ l ∈ layers, 0 ≤ l.score) : l0.score ≤ sumMatched layers := by
  induction layers with
  | nil => simp at hmem
  | cons hd tl ih =>
    rw [sumMatched_cons]
    have htl := fun l hl => h l (List.mem_cons_of_mem _ hl)
    rcases List.mem_cons.mp hmem with rfl | hmem
    · have := sumMatched_nonneg htl
      simp [hm]; omega
    · have := ih hmem htl
      have h0 := h hd (List.mem_cons_self _ _)
      split <;> omega

/-- Any matched Signature signal whose score is 100 (as every matched
gateway signal is) forces the part_002 `buildResult` to the
Critical/100/malicious verdict as well. -/
theorem buildResultB_sig (url : Str) (layers : List DetectionLayer) (now : Nat)
    {l0 : DetectionLayer} (hmem : l0 ∈ layers) (hm : l0.matched = true)
    (hscore : l0.score = 100) (hnn : ∀ l ∈ layers, 0 ≤ l.score) :
    (buildResultB url layers now).riskScore = 100 ∧
    (buildResultB url layers now).riskLevel = .critical ∧
    (buildResultB url layers now).isMalicious = true := by
  unfold buildResultB
  dsimp only
  split
  · exact ⟨rfl, rfl, rfl⟩
  · have hge : (100 : Int) ≤ sumMatched layers := hscore ▸ sumMatched_ge hmem hm hnn
    have : min 100 (sumMatched layers) = 100 := by omega
    rw [this, getRiskLevel_100]
    exact ⟨rfl, rfl, by simp⟩

theorem buildResultB_range (url : Str) (layers : List DetectionLayer) (now : Nat)
    (h : ∀ l ∈ layers, 0 ≤ l.score) :
    0 ≤ (buildResultB url layers now).riskScore ∧
      (buildResultB url layers now).riskScore ≤ 100 := by
  unfold buildResultB
  have h1 := sumMatched_nonneg h
  dsimp only
  split
  · simp
  · constructor <;> simp <;> omega

/-! ### analyze control-flow lemmas -/

theorem analyzeA_error (st : AnalyzerState) (now : Nat) (gw : GatewayEnv) (url : Str)
    (hp : parseURL (normalizeURL url) = none) :
    analyzeA st now gw url = (errorResult url now, st) := by
  simp only [analyzeA]
  rw [hp]

theorem analyzeB_error (st : AnalyzerState) (now : Nat) (gw : GatewayEnv) (url : Str)
    (hp : parseURL (normalizeURL url) = none) :
    analyzeB st now gw url = (errorResult url now, st) := by
  simp only [analyzeB]
  rw [hp]

theorem analyzeA_whitelist (st : AnalyzerState) (now : Nat) (gw : GatewayEnv) (url : Str)
    (o : URLObj) (hp : parseURL (normalizeURL url) = some o)
    (hwl : wlContains st.whitelist o.host = true) :
    analyzeA st now gw url = (whitelistResult (normalizeURL url) now, st) := by
  simp only [analyzeA]
  rw [hp]
  simp [hwl]

theorem analyzeB_whitelist (st : AnalyzerState) (now : Nat) (gw : GatewayEnv) (url : Str)
    (o : URLObj) (hp : parseURL (normalizeURL url) = some o)
    (hwl : wlContains st.whitelist o.host = true) :
    analyzeB st now gw url = (whitelistResult (normalizeURL url) now, st) := by
  simp only [analyzeB]
  rw [hp]
  simp [hwl]

theorem analyzeA_run (st : AnalyzerState) (now : Nat) (gw : GatewayEnv) (url : Str)
    (o : URLObj) (hp : parseURL (normalizeURL url) = some o)
    (hwl : wlContains st.whitelist o.host = false)
    (hfresh : cacheFresh st (normalizeURL url) now = false) :
    analyzeA st now gw url = runLayersA st now gw url (normalizeURL url) := by
  simp only [analyzeA]
  rw [hp]
  simp only [hwl, Bool.false_eq_true, if_false]
  unfold cacheFresh at hfresh
  rcases hfind : st.cache.find? (fun p => decide (p.1 = normalizeURL url)) with _ | p
  · simp [hfind]
  · rw [hfind] at hfresh
    simp only [hfind]
    simp only [decide_eq_false_iff_not] at hfresh
    simp [hfresh]

theorem analyzeB_run (st : AnalyzerState) (now : Nat) (gw : GatewayEnv) (url : Str)
    (o : URLObj) (hp : parseURL (normalizeURL url) = some o)
    (hwl : wlContains st.whitelist o.host = false)
    (hfresh : cacheFresh st (normalizeURL url) now = false) :
    analyzeB st now gw url = runLayersB st now gw url (normalizeURL url) := by
  simp only [analyzeB]
  rw [hp]
  simp only [hwl, Bool.false_eq_true, if_false]
  unfold cacheFresh at hfresh
  rcases hfind : st.cache.find? (fun p => decide (p.1 = normalizeURL url)) with _ | p
  · simp [hfind]
  · rw [hfind] at hfresh
    simp only [hfind]
    simp only [decide_eq_false_iff_not] at hfresh
    simp [hfresh]

theorem heuristicAnalyze_of_parse {n : Str} {o : URLObj} (hp : parseURL n = some o) :
    heuristicAnalyze n = some (heuristicRules n o) := by
  unfold heuristicAnalyze
  rw [hp]

theorem no_matched_errorResult (url : Str) (now : Nat) :
    ¬ ∃ l ∈ (errorResult url now).detectionLayers, l.layer = .signature ∧ l.matched = true := by
  simp [errorResult]

theorem no_matched_whitelistResult (n : Str) (now : Nat) :
    ¬ ∃ l ∈ (whitelistResult n now).detectionLayers, l.layer = .signature ∧ l.matched = true := by
  simp [whitelistResult]

theorem checkAllAPIs_unmatched {n : Str} {gw : GatewayEnv}
    (hm : (checkAllAPIs n gw).any (fun l => l.matched) = false) :
    ∀ l ∈ checkAllAPIs n gw, l.matched = false := by
  intro l hl
  simpa using List.any_eq_false.mp hm l hl

theorem runLayers_nonneg (n : Str) (gw : GatewayEnv) (o : URLObj) :
    ∀ l ∈ checkAllAPIs n gw ++ heuristicRules n o ++ [mlAnalyze n], 0 ≤ l.score := by
  intro l hl
  simp only [List.mem_append, List.mem_singleton, or_assoc] at hl
  rcases hl with hl | hl | rfl
  · exact (checkAllAPIs_sig n gw l hl).2.1
  · exact (heuristicRules_ok n o l hl).2
  · exact (mlAnalyze_score_range n).1

/-- In the combined layer list, a matched Signature-layer signal can only be
a gateway signal, hence has score 100. -/
theorem matched_sig_score (n : Str) (gw : GatewayEnv) (o : URLObj)
    {l : DetectionLayer}
    (hl : l ∈ checkAllAPIs n gw ++ heuristicRules n o ++ [mlAnalyze n])
    (hsig : l.layer = .signature) (hm : l.matched = true) : l.score = 100 := by
  simp only [List.mem_append, List.mem_singleton, or_assoc] at hl
  rcases hl with hl | hl | rfl
  · exact (checkAllAPIs_sig n gw l hl).2.2 hm
  · exact absurd ((heuristicRules_ok n o l hl).1.symm.trans hsig) (by simp)
  · exact absurd ((mlAnalyze_layer n).symm.trans hsig) (by simp)

theorem buildResultA_layers (url : Str) (layers : List DetectionLayer) (now : Nat) :
    (buildResultA url layers now).detectionLayers = layers := rfl

theorem buildResultB_layers (url : Str) (layers : List DetectionLayer) (now : Nat) :
    (buildResultB url layers now).detectionLayers = layers := by
  unfold buildResultB
  dsimp only
  split <;> rfl

/-- Claim C1 (trust-priority invariant), for both analyzer revisions: any
call of `analyze` that is not served from the result cache and whose result
contains a matched Signature-layer signal yields the forced verdict
`riskScore = 100`, `riskLevel = Critical`, `isMalicious = true`, whatever
the other signals carry. -/
theorem C1_trust_priority (st : AnalyzerState) (now : Nat) (gw : GatewayEnv) (url : Str)
    (hfresh : cacheFresh st (normalizeURL url) now = false) :
    ((∃ l ∈ (analyzeA st now gw url).1.detectionLayers,
        l.layer = .signature ∧ l.matched = true) →
      (analyzeA st now gw url).1.riskScore = 100 ∧
      (analyzeA st now gw url).1.riskLevel = .critical ∧
      (analyzeA st now gw url).1.isMalicious = true) ∧
    ((∃ l ∈ (analyzeB st now gw url).1.detectionLayers,
        l.layer = .signature ∧ l.matched = true) →
      (analyzeB st now gw url).1.riskScore = 100 ∧
      (analyzeB st now gw url).1.riskLevel = .critical ∧
      (analyzeB st now gw url).1.isMalicious = true) := by
  rcases hp : parseURL (normalizeURL url) with _ | o
  · rw [analyzeA_error st now gw url hp, analyzeB_error st now gw url hp]
    exact ⟨fun h => absurd h (no_matched_errorResult url now),
           fun h => absurd h (no_matched_errorResult url now)⟩
  · rcases hw : wlContains st.whitelist o.host with _ | _
    · rw [analyzeA_run st now gw url o hp hw hfresh,
        analyzeB_run st now gw url o hp hw hfresh]
      unfold runLayersA runLayersB
      rw [heuristicAnalyze_of_parse hp]
      dsimp only
      constructor
      · rcases hm : (checkAllAPIs (normalizeURL url) gw).any (fun l => l.matched) with _ | _
        · simp only [hm, Bool.false_eq_true, if_false]
          intro ⟨l, hl, hsig, hml⟩
          exfalso
          rw [buildResultA_layers] at hl
          simp only [List.mem_append, List.mem_singleton, or_assoc] at hl
          rcases hl with h | h | rfl
          · rw [checkAllAPIs_unmatched hm l h] at hml; cases hml
          · rw [(heuristicRules_ok _ o l h).1] at hsig; cases hsig
          · rw [mlAnalyze_layer (normalizeURL url)] at hsig; cases hsig
        · simp only [hm, if_true]
          intro _
          obtain ⟨l, hl, hml⟩ := List.any_eq_true.mp hm
          exact buildResultA_sig _ _ now ⟨l, hl,
            (checkAllAPIs_sig _ gw l hl).1, by simpa using hml⟩
      · intro ⟨l, hl, hsig, hml⟩
        rw [buildResultB_layers] at hl
        exact buildResultB_sig _ _ now hl hml
          (matched_sig_score _ gw o hl hsig hml)
          (runLayers_nonneg _ gw o)
    · rw [analyzeA_whitelist st now gw url o hp hw,
        analyzeB_whitelist st now gw url o hp hw]
      exact ⟨fun h => absurd h (no_matched_whitelistResult _ now),
             fun h => absurd h (no_matched_whitelistResult _ now)⟩

theorem wlContains_iff {wl : List Str} {x : Str} : wlContains wl x = true ↔ x ∈ wl := by
  unfold wlContains
  rw [List.any_eq_true]
  constructor
  · rintro ⟨y, hy, hxy⟩
    simp only [decide_eq_true_eq] at hxy
    exact hxy ▸ hy
  · intro hx
    exact ⟨x, hx, by simp⟩

theorem analyzeA_cacheHit (st : AnalyzerState) (now : Nat) (gw : GatewayEnv) (url : Str)
    (o : URLObj) (p : Str × CacheEntry) (hp : parseURL (normalizeURL url) = some o)
    (hwl : wlContains st.whitelist o.host = false)
    (hfind : st.cache.find? (fun q => decide (q.1 = normalizeURL url)) = some p)
    (hf : now - p.2.timestamp < SAFE_URL_TTL) :
    analyzeA st now gw url = (p.2.result, st) := by
  simp only [analyzeA]
  rw [hp]
  simp [hwl, hfind, hf]

theorem analyzeB_cacheHit (st : AnalyzerState) (now : Nat) (gw : GatewayEnv) (url : Str)
    (o : URLObj) (p : Str × CacheEntry) (hp : parseURL (normalizeURL url) = some o)
    (hwl : wlContains st.whitelist o.host = false)
    (hfind : st.cache.find? (fun q => decide (q.1 = normalizeURL url)) = some p)
    (hf : now - p.2.timestamp < SAFE_URL_TTL) :
    analyzeB st now gw url = (p.2.result, st) := by
  simp only [analyzeB]
  rw [hp]
  simp [hwl, hfind, hf]

/-- Claim C3: for a URL whose normalized form has a whitelisted hostname,
both analyzers return the Safe/0 verdict with exactly one non-matched
informational signal and leave the analyzer state untouched; the result does
not depend on the gateway environment, so no other detection layer runs. -/
theorem C3_whitelist_short_circuit (st : AnalyzerState) (now : Nat) (gw : GatewayEnv)
    (url : Str) (o : URLObj) (hp : parseURL (normalizeURL url) = some o)
    (hwl : wlContains st.whitelist o.host = true) :
    analyzeA st now gw url = (whitelistResult (normalizeURL url) now, st) ∧
    analyzeB st now gw url = (whitelistResult (normalizeURL url) now, st) ∧
    (whitelistResult (normalizeURL url) now).riskScore = 0 ∧
    (whitelistResult (normalizeURL url) now).riskLevel = .safe ∧
    (whitelistResult (normalizeURL url) now).isMalicious = false ∧
    (whitelistResult (normalizeURL url) now).detectionLayers.length = 1 ∧
    (∀ l ∈ (whitelistResult (normalizeURL url) now).detectionLayers, l.matched = false) := by
  refine ⟨analyzeA_whitelist st now gw url o hp hwl,
    analyzeB_whitelist st now gw url o hp hwl, rfl, rfl, rfl, rfl, ?_⟩
  simp [whitelistResult]

/-- Claim C10: the fail-open error verdict of the top-level catch and the
whitelist short-circuit verdict both leave the analyzer state (in
particular the result cache) unchanged, so a later call re-runs the
analysis; the error verdict is the Safe/0 "Error Handler" result. -/
theorem C10_error_not_cached (st : AnalyzerState) (now : Nat) (gw : GatewayEnv) (url : Str) :
    (parseURL (normalizeURL url) = none →
      analyzeA st now gw url = (errorResult url now, st) ∧
      analyzeB st now gw url = (errorResult url now, st)) ∧
    (∀ o, parseURL (normalizeURL url) = some o →
      wlContains st.whitelist o.host = true →
      (analyzeA st now gw url).2 = st ∧ (analyzeB st now gw url).2 = st) ∧
    (errorResult url now).riskScore = 0 ∧
    (errorResult url now).riskLevel = .safe ∧
    (errorResult url now).isMalicious = false ∧
    (errorResult url now).detectionLayers.map (fun l => l.method) =
      [str ("Error Handler")] := by
  refine ⟨fun hp => ⟨analyzeA_error st now gw url hp, analyzeB_error st now gw url hp⟩,
    fun o hp hwl => ?_, rfl, rfl, rfl, rfl⟩
  rw [analyzeA_whitelist st now gw url o hp hwl, analyzeB_whitelist st now gw url o hp hwl]
  exact ⟨rfl, rfl⟩

/-- Claim C5: the produced risk score always lies in [0, 100], on the error
path, the whitelist path, the cache-hit path (granted cached results in
range) and the full-analysis path, for both analyzer revisions. -/
theorem C5_score_range (st : AnalyzerState) (now : Nat) (gw : GatewayEnv) (url : Str)
    (hcache : ∀ p ∈ st.cache, 0 ≤ p.2.result.riskScore ∧ p.2.result.riskScore ≤ 100) :
    (0 ≤ (analyzeA st now gw url).1.riskScore ∧
      (analyzeA st now gw url).1.riskScore ≤ 100) ∧
    (0 ≤ (analyzeB st now gw url).1.riskScore ∧
      (analyzeB st now gw url).1.riskScore ≤ 100) := by
  rcases hp : parseURL (normalizeURL url) with _ | o
  · rw [analyzeA_error st now gw url hp, analyzeB_error st now gw url hp]
    refine ⟨⟨le_refl 0, by norm_num [errorResult]⟩, le_refl 0, by norm_num [errorResult]⟩
  · rcases hw : wlContains st.whitelist o.host with _ | _
    · rcases hfresh : cacheFresh st (normalizeURL url) now with _ | _
      · rw [analyzeA_run st now gw url o hp hw hfresh,
          analyzeB_run st now gw url o hp hw hfresh]
        unfold runLayersA runLayersB
        rw [heuristicAnalyze_of_parse hp]
        dsimp only
        constructor
        · split
          · exact buildResultA_range _ _ now
              (fun l hl => (checkAllAPIs_sig _ gw l hl).2.1)
          · exact buildResultA_range _ _ now (runLayers_nonneg _ gw o)
        · exact buildResultB_range _ _ now (runLayers_nonneg _ gw o)
      · unfold cacheFresh at hfresh
        rcases hfind : st.cache.find? (fun q => decide (q.1 = normalizeURL url)) with _ | p
        · rw [hfind] at hfresh; cases hfresh
        · rw [hfind] at hfresh
          simp only [decide_eq_true_eq] at hfresh
          rw [analyzeA_cacheHit st now gw url o p hp hw hfind hfresh,
            analyzeB_cacheHit st now gw url o p hp hw hfind hfresh]
          exact ⟨hcache p (List.mem_of_find?_eq_some hfind),
            hcache p (List.mem_of_find?_eq_some hfind)⟩
    · rw [analyzeA_whitelist st now gw url o hp hw, analyzeB_whitelist st now gw url o hp hw]
      refine ⟨⟨le_refl 0, by norm_num [whitelistResult]⟩, le_refl 0,
        by norm_num [whitelistResult]⟩

/-- Claim C6: `getRiskLevel` is monotonically non-decreasing in the score
and maps the boundary scores to the documented buckets. -/
theorem C6_risk_level_mapping :
    (∀ s1 s2 : Int, s1 ≤ s2 → levelRank (getRiskLevel s1) ≤ levelRank (getRiskLevel s2)) ∧
    getRiskLevel 24 = .safe ∧ getRiskLevel 25 = .low ∧ getRiskLevel 39 = .low ∧
    getRiskLevel 40 = .medium ∧ getRiskLevel 59 = .medium ∧ getRiskLevel 60 = .high ∧
    getRiskLevel 84 = .high ∧ getRiskLevel 85 = .critical := by
  refine ⟨?_, by decide, by decide, by decide, by decide, by decide, by decide,
    by decide, by decide⟩
  intro s1 s2 h
  unfold getRiskLevel RISK_CRITICAL RISK_HIGH RISK_MEDIUM RISK_LOW
  split_ifs <;> simp_all [levelRank] <;> omega

/-- Claim C7: the gateway emits exactly one Signature-layer signal per
configured external service (Google Safe Browsing, PhishTank, VirusTotal)
on every outcome of each service, and rate-limit rejections as well as
failures surface as non-matched signals. -/
theorem C7_gateway_completeness (url : Str) (gw : GatewayEnv) :
    (checkAllAPIs url gw).length = 3 ∧
    (∀ l ∈ checkAllAPIs url gw, l.layer = .signature) ∧
    checkAllAPIs url gw =
      [apiLayer (str ("Google Safe Browsing")) (checkSafeBrowsing url gw.sb),
       apiLayer (str ("PhishTank")) (checkPhishTank gw.pt),
       apiLayer (str ("VirusTotal")) (checkVirusTotal gw.vt)] ∧
    (∀ name r, r.success = false → (apiLayer name r).matched = false) ∧
    (gw.sb.cacheHit = none → gw.sb.rateOk = false →
      (checkSafeBrowsing url gw.sb).success = false) ∧
    (gw.vt.keyConfigured = true → gw.vt.rateOk = false →
      (checkVirusTotal gw.vt).success = false) := by
  refine ⟨rfl, fun l hl => (checkAllAPIs_sig url gw l hl).1, rfl,
    apiLayer_fail_unmatched, fun h1 h2 => ?_, fun h1 h2 => ?_⟩
  · simp [checkSafeBrowsing, h1, h2]
  · simp [checkVirusTotal, h1, h2]

/-- Claim C8 counterexample: `HeuristicEngine.analyze` re-parses the URL
outside every try/catch (heuristic-engine.ts line 157), so on a malformed
URL it throws (modelled by `none`) instead of returning a signal list. -/
theorem C8_counterexample : heuristicAnalyze (str ("notaurl")) = none := by decide

/-- Claim C8 as amended: `extractFeatures` is total and returns the fixed
benign-default feature set on every malformed URL, while
`HeuristicEngine.analyze` returns a signal list exactly on URLs that parse
and throws on the rest. -/
theorem C8_totality_amended :
    (∀ u, parseURL u = none → extractFeatures u = benignDefaultFeatures) ∧
    (∀ u, (heuristicAnalyze u).isSome = true ↔ (parseURL u).isSome = true) := by
  constructor
  · intro u hp
    unfold extractFeatures
    rw [hp]
  · intro u
    unfold heuristicAnalyze
    cases hp : parseURL u <;> simp

/-- Claim C9: whitelist entries are lowercased on add/remove and matched by
exact string equality against the normalized hostname; adding a registrable
domain does not whitelist its subdomains. -/
theorem C9_whitelist_exact :
    (∀ st d x, wlContains (addToWhitelist st d).whitelist x = true ↔
      (x = lowerStr d ∨ wlContains st.whitelist x = true)) ∧
    (∀ st d x, wlContains (removeFromWhitelist st d).whitelist x = true ↔
      (wlContains st.whitelist x = true ∧ x ≠ lowerStr d)) ∧
    (addToWhitelist emptyState (str ("Example.COM"))).whitelist = [str ("example.com")] ∧
    analyzeA (addToWhitelist emptyState (str ("example.com"))) 5 gwNeutral
        (str ("https://example.com")) =
      (whitelistResult (str ("https://example.com")) 5,
        addToWhitelist emptyState (str ("example.com"))) ∧
    (analyzeA (addToWhitelist emptyState (str ("example.com"))) 5 gwNeutral
        (str ("https://www.example.com"))).1.details ≠ str ("Whitelisted domain") := by
  refine ⟨?_, ?_, by decide, by decide, by decide⟩
  · intro st d x
    simp only [wlContains_iff]
    unfold addToWhitelist
    dsimp only
    split
    · rename_i h
      constructor
      · exact fun hx => Or.inr hx
      · rintro (rfl | hx)
        · exact wlContains_iff.mp h
        · exact hx
    · simp [List.mem_append, or_comm]
  · intro st d x
    simp only [wlContains_iff]
    unfold removeFromWhitelist
    dsimp only
    rw [List.mem_filter]
    simp

/-- Claim C2 counterexample: in the threat-analyzer.ts `analyze`, a matched
Signature-layer signal short-circuits the pipeline — the result carries a
matched Signature signal but no ML-layer signal at all (and no heuristic
signal), contradicting "all three layers are run and every signal they
produce appears". -/
theorem C2_counterexample :
    (∃ l ∈ (analyzeA emptyState 5 gwMalicious
        (str ("https://example.com"))).1.detectionLayers,
      l.layer = .signature ∧ l.matched = true) ∧
    ∀ l ∈ (analyzeA emptyState 5 gwMalicious
        (str ("https://example.com"))).1.detectionLayers,
      ¬ l.layer = .ml := by decide

/-- Claim C2 as amended: the part_002 revision of `analyze` runs all three
layers on every call not short-circuited by the whitelist or the cache, and
every signal they produce — gateway, heuristic and ML — appears in the
returned result, even when a Signature-layer signal matched. -/
theorem C2_all_layers_recorded (st : AnalyzerState) (now : Nat) (gw : GatewayEnv)
    (url : Str) (o : URLObj) (hp : parseURL (normalizeURL url) = some o)
    (hwl : wlContains st.whitelist o.host = false)
    (hfresh : cacheFresh st (normalizeURL url) now = false) :
    (analyzeB st now gw url).1.detectionLayers =
      checkAllAPIs (normalizeURL url) gw ++ heuristicRules (normalizeURL url) o ++
        [mlAnalyze (normalizeURL url)] ∧
    heuristicAnalyze (normalizeURL url) = some (heuristicRules (normalizeURL url) o) := by
  refine ⟨?_, heuristicAnalyze_of_parse hp⟩
  rw [analyzeB_run st now gw url o hp hwl hfresh]
  unfold runLayersB
  rw [heuristicAnalyze_of_parse hp]
  dsimp only
  exact buildResultB_layers _ _ _

/-! ### Witnesses -/

theorem C1_witness :
    (analyzeA emptyState 5 gwMalicious (str ("https://example.com"))).1.riskScore = 100 ∧
    (analyzeA emptyState 5 gwMalicious (str ("https://example.com"))).1.riskLevel = .critical ∧
    (analyzeA emptyState 5 gwMalicious (str ("https://example.com"))).1.isMalicious = true :=
  (C1_trust_priority emptyState 5 gwMalicious (str ("https://example.com")) (by decide)).1
    (by decide)

theorem C2_witness :
    (analyzeB emptyState 5 gwMalicious (str ("https://example.com"))).1.detectionLayers =
      checkAllAPIs (normalizeURL (str ("https://example.com"))) gwMalicious ++
        heuristicRules (normalizeURL (str ("https://example.com")))
          ⟨str ("https"), str ("example.com"), [], [], [], []⟩ ++
        [mlAnalyze (normalizeURL (str ("https://example.com")))] :=
  (C2_all_layers_recorded emptyState 5 gwMalicious (str ("https://example.com"))
    ⟨str ("https"), str ("example.com"), [], [], [], []⟩
    (by decide) (by decide) (by decide)).1

theorem C3_witness :
    analyzeA (addToWhitelist emptyState (str ("example.com"))) 7 gwMalicious
        (str ("https://example.com")) =
      (whitelistResult (normalizeURL (str ("https://example.com"))) 7,
        addToWhitelist emptyState (str ("example.com"))) :=
  (C3_whitelist_short_circuit (addToWhitelist emptyState (str ("example.com"))) 7
    gwMalicious (str ("https://example.com"))
    ⟨str ("https"), str ("example.com"), [], [], [], []⟩ (by decide) (by decide)).1

theorem C5_witness :
    (0 ≤ (analyzeA emptyState 5 gwMalicious (str ("https://example.com"))).1.riskScore ∧
      (analyzeA emptyState 5 gwMalicious (str ("https://example.com"))).1.riskScore ≤ 100) ∧
    (0 ≤ (analyzeB emptyState 5 gwMalicious (str ("https://example.com"))).1.riskScore ∧
      (analyzeB emptyState 5 gwMalicious (str ("https://example.com"))).1.riskScore ≤ 100) :=
  C5_score_range emptyState 5 gwMalicious (str ("https://example.com"))
    (fun p hp => absurd hp (List.not_mem_nil p))

theorem C6_witness :
    levelRank (getRiskLevel 10) ≤ levelRank (getRiskLevel 90) :=
  C6_risk_level_mapping.1 10 90 (by norm_num)

theorem C7_witness :
    (checkAllAPIs (str ("https://example.com")) gwRateLimited).length = 3 ∧
    (checkSafeBrowsing (str ("https://example.com")) gwRateLimited.sb).success = false := by
  have h := C7_gateway_completeness (str ("https://example.com")) gwRateLimited
  exact ⟨h.1, h.2.2.2.2.1 rfl rfl⟩

theorem C8_witness :
    extractFeatures (str ("notaurl")) = benignDefaultFeatures ∧
    (heuristicAnalyze (str ("https://example.com"))).isSome = true :=
  ⟨C8_totality_amended.1 _ (by decide), (C8_totality_amended.2 _).mpr (by decide)⟩

theorem C9_witness :
    wlContains (addToWhitelist emptyState (str ("Example.COM"))).whitelist
      (str ("example.com")) = true :=
  (C9_whitelist_exact.1 emptyState (str ("Example.COM")) (str ("example.com"))).mpr
    (Or.inl (by decide))

theorem C10_witness :
    analyzeA emptyState 5 gwMalicious (str ("not a url")) =
      (errorResult (str ("not a url")) 5, emptyState) :=
  ((C10_error_not_cached emptyState 5 gwMalicious (str ("not a url"))).1 (by decide)).1

end UrlGuard
